import Mathlib

/-!
Verification development for the content-management core of the Gerbera
media server (files src/content/content_manager.cc and
src/content/playhook_handler.cc).

The C++ code is shallowly embedded: the mutable members of ContentManager
(the two task queues, the current-task slot, the container cache, the
autoscan mtime memo, the recently-opened list) become fields of an explicit
state record that every operation threads.  External collaborators that are
not part of this repository (the database backend, the MIME classifier, the
metadata extractor, the layout engine, the filesystem) are modelled from
the spec as explicit data or as function-valued configuration fields.
Machine integers (object ids, time_t values) are modelled as Int; the code
never exercises integer overflow on them.
-/

/-- INVALID_OBJECT_ID sentinel (value from the spec's data model; the
defining header is outside src/). -/
def INVALID_OBJECT_ID : Int := -1

/-- CDS_ID_ROOT sentinel. -/
def CDS_ID_ROOT : Int := 0

/-- CDS_ID_FS_ROOT sentinel. -/
def CDS_ID_FS_ROOT : Int := 1

/-- Modelled from the spec: the reserved forbidden id range (the
IS_FORBIDDEN_CDS_ID macro is defined outside src/).  The spec reserves
ROOT, FS_ROOT and the remaining sentinel range; we take it to be every id
up to CDS_ID_FS_ROOT. -/
def IS_FORBIDDEN_CDS_ID (id : Int) : Bool := id ≤ CDS_ID_FS_ROOT

/-- Ordered string-keyed association list used for the metadata maps, the
container cache and the per-path mtime memos.  Insertion conses (the most
recent binding shadows older ones), which matches the observable lookup
behaviour of std::map assignment. -/
def alookupS {β : Type} : List (String × β) → String → Option β
  | [], _ => none
  | (k, v) :: rest, q => if k = q then some v else alookupS rest q

/-- Metadata of a catalog object: domain key to string value. -/
abbrev Metadata := List (String × String)

/-- Lookup of a metadata key. -/
def mdLookup (m : Metadata) (k : String) : Option String := alookupS m k

/-- Assignment to a metadata key (std::map operator[] = value). -/
def mdSet (m : Metadata) (k : String) (v : String) : Metadata := (k, v) :: m

/-- Erasure of a metadata key (std::map erase). -/
def mdErase (m : Metadata) (k : String) : Metadata :=
  m.filter (fun e => e.1 != k)

/-- Modelled from the spec: metadata field name of M_TITLE as produced by
MetadataHandler::getMetaFieldName (the handler is outside src/; only
distinctness of the strings matters). -/
def M_TITLE_KEY : String := "dc:title"

/-- Modelled from the spec: metadata field name of M_DESCRIPTION. -/
def M_DESCRIPTION_KEY : String := "dc:description"

/-- Modelled from the spec: metadata field name of M_TRACKNUMBER. -/
def M_TRACKNUMBER_KEY : String := "upnp:originalTrackNumber"

/-- Modelled from the spec: metadata field name of M_ARTIST. -/
def M_ARTIST_KEY : String := "upnp:artist"

/-- Modelled from the spec: metadata field name of M_ALBUMARTIST. -/
def M_ALBUMARTIST_KEY : String := "upnp:albumArtist"

/-- Catalog object (CdsObject / CdsItem / CdsContainer flattened to one
record with an isContainer tag, as the claims only branch on the variant).
Resources are not modelled except for the presence of a CH_RESOURCE
attached resource, which is the only resource fact the embedded code
branches on. -/
structure CdsObject where
  id : Int
  parentId : Int
  refId : Int
  title : String
  upnpClass : String
  location : String
  mtime : Int
  metadata : Metadata
  isContainer : Bool
  hasResourceCH : Bool
  deriving DecidableEq, Repr

/-- CdsObject::isItem. -/
def CdsObject.isItem (o : CdsObject) : Bool := !o.isContainer

/-- Result record of database removals: affected container ids split into
the UI-visible and UPnP-visible sets. -/
structure ChangedContainers where
  ui : List Int
  upnp : List Int
  deriving DecidableEq, Repr

/-- Modelled from the spec: the database backend (an external collaborator,
spec section 6).  Objects are rows; fresh ids are drawn from nextId. -/
structure DbState where
  objects : List CdsObject
  nextId : Int
  deriving DecidableEq, Repr

/-- Modelled from the spec: find_object_by_path. -/
def dbFindByPath (db : DbState) (p : String) : Option CdsObject :=
  db.objects.find? (fun o => o.location == p)

/-- Modelled from the spec: find_object_id_by_path (INVALID_OBJECT_ID when
absent). -/
def dbFindIdByPath (db : DbState) (p : String) : Int :=
  match dbFindByPath db p with
  | some o => o.id
  | none => INVALID_OBJECT_ID

/-- Modelled from the spec: load_object(id); absence is surfaced as none
(the embedded call sites all null-check or catch). -/
def dbLoadObject (db : DbState) (id : Int) : Option CdsObject :=
  db.objects.find? (fun o => o.id == id)

/-- Modelled from the spec: add_object; assigns the next fresh id and
reports the parent as the changed container. -/
def dbAddObject (db : DbState) (obj : CdsObject) : DbState × CdsObject × Int :=
  let o := { obj with id := db.nextId }
  ({ objects := db.objects ++ [o], nextId := db.nextId + 1 }, o, obj.parentId)

/-- Modelled from the spec: update_object (replace the row with the same
id). -/
def dbUpdateObject (db : DbState) (obj : CdsObject) : DbState :=
  { db with objects := db.objects.map (fun o => if o.id == obj.id then obj else o) }

/-- Modelled from the spec: remove_object(id, all); drops the row and
reports the removed object's parent as changed. -/
def dbRemoveObject (db : DbState) (id : Int) (_all : Bool) :
    DbState × ChangedContainers :=
  let parents := (db.objects.filter (fun o => o.id == id)).map (fun o => o.parentId)
  ({ db with objects := db.objects.filter (fun o => o.id != id) },
   { ui := parents, upnp := parents })

/-- Modelled from the spec: remove_objects(id_set). -/
def dbRemoveObjects (db : DbState) (ids : List Int) :
    DbState × ChangedContainers :=
  let parents := (db.objects.filter (fun o => ids.contains o.id)).map (fun o => o.parentId)
  ({ db with objects := db.objects.filter (fun o => !ids.contains o.id) },
   { ui := parents, upnp := parents })

/-- Modelled from the spec: get_objects(container_id, items_only). -/
def dbGetObjects (db : DbState) (containerId : Int) (itemsOnly : Bool) : List Int :=
  ((db.objects.filter (fun o => o.parentId == containerId && (!itemsOnly || !o.isContainer))).map
    (fun o => o.id))

/-- Modelled from the spec: child count of a container (used by the
first-child detection in addObject). -/
def dbChildCount (db : DbState) (parentId : Int) : Int :=
  ((db.objects.filter (fun o => o.parentId == parentId)).length : Int)

/-- Split a character list at every slash (the list-of-characters view of
splitting a path string). -/
def splitSlash : List Char → List (List Char)
  | [] => [[]]
  | c :: rest =>
    match splitSlash rest with
    | s :: ss => if c = '/' then [] :: (s :: ss) else (c :: s) :: ss
    | [] => [[c]]

/-- Nonempty path segments of a slash-delimited chain string (the
behaviour of the repository's splitString helper, which skips empty
tokens; the helper lives outside src/). -/
def chainSegments (chain : String) : List String :=
  ((splitSlash chain.data).map (fun l => String.mk l)).filter (fun t => t != "")

/-- startswith(s, prefix) from the repository's util helpers (outside
src/): a character-wise prefix test. -/
def strStarts (pre s : String) : Bool := pre.data.isPrefixOf s.data

/-- The name[0] == dot test of the walk loops (an empty name reads the
terminating null in the source and compares unequal). -/
def nameStartsWithDot (n : String) : Bool :=
  match n.data with
  | [] => false
  | c :: _ => c == '.'

/-- Last segment of a chain (splitString(chain, sep).back()). -/
def chainLastSegment (chain : String) : String :=
  (chainSegments chain).getLastD ""

/-- Slash-joined proper prefixes of a segment list, each prefix extending
the accumulator by one segment. -/
def buildPrefixAcc (acc : String) : List String → List String
  | [] => []
  | t :: rest =>
    let p := acc ++ "/" ++ t
    p :: buildPrefixAcc p rest

/-- Locations the database materializes for a chain: the proper prefixes
of the chain followed by the chain itself as the terminal location. -/
def chainLocations (chain : String) : List String :=
  buildPrefixAcc "" (chainSegments chain).dropLast ++ [chain]

/-- One step of the database chain walk: reuse an existing container at
this location or create a fresh one (metadata, class and refId go on the
terminal location only, which is the last element of the list). -/
def dbChainGo (cls : String) (refId : Int) (md : Metadata) :
    DbState → Int → List Int → List String → DbState × Int × List Int
  | db, lastId, created, [] => (db, lastId, created)
  | db, lastId, created, p :: rest =>
    match dbFindByPath db p with
    | some o => dbChainGo cls refId md db o.id created rest
    | none =>
      let obj : CdsObject :=
        { id := db.nextId, parentId := lastId,
          refId := if rest.isEmpty then refId else INVALID_OBJECT_ID,
          title := chainLastSegment p,
          upnpClass := if rest.isEmpty then cls else "object.container",
          location := p, mtime := 0,
          metadata := if rest.isEmpty then md else [],
          isContainer := true, hasResourceCH := false }
      dbChainGo cls refId md
        { objects := db.objects ++ [obj], nextId := db.nextId + 1 }
        db.nextId (created ++ [db.nextId]) rest

/-- Modelled from the spec: add_container_chain(chain, class, ref_id,
metadata) returns the updated database, the terminal container id and the
list of newly created container ids (spec section 4.6). -/
def dbAddContainerChain (db : DbState) (chain : String) (cls : String)
    (refId : Int) (md : Metadata) : DbState × Int × List Int :=
  dbChainGo cls refId md db CDS_ID_ROOT [] (chainLocations chain)

/-- Well-formedness of the modelled database: fresh-id counter past the
sentinels, row ids strictly between the sentinel range and the counter,
and unique locations (the database keys objects by path). -/
def DbWf (db : DbState) : Prop :=
  1 < db.nextId ∧ (∀ o ∈ db.objects, 1 < o.id ∧ o.id < db.nextId) ∧
    (db.objects.map (fun o => o.location)).Nodup

/-- Task type tag (GenericTask::taskType). -/
inductive TaskType where
  | AddFile
  | RemoveObjectTask
  | RescanDirectoryTask
  deriving DecidableEq, Repr

/-- GenericTask, flattened: the queue bookkeeping plus the AddFile payload
path used by invalidateAddTask. -/
structure GenTask where
  id : Nat
  parentId : Nat
  valid : Bool
  taskType : TaskType
  path : String
  cancellable : Bool
  description : String
  deriving DecidableEq, Repr

/-- Signals emitted to the update bus (containerChanged / containersChanged)
and to the session manager (the UI variants). -/
inductive Notif where
  | containerChanged (id : Int)
  | containerChangedUI (id : Int)
  | containersChanged (ids : List Int)
  | containersChangedUI (ids : List Int)
  deriving DecidableEq, Repr

/-- The mutable state of ContentManager that the embedded operations
read and write: container cache (containerMap), database handle state,
the two task queues and the current task, the task-id counter, the
recently-opened list of the play hook, the autoscan directory's per-path
mtime memos (current and previous), its in-flight task count, the timed
autoscan registry locations, and the emitted notification log. -/
structure CMState where
  containerMap : List (String × CdsObject)
  db : DbState
  taskQueue1 : List GenTask
  taskQueue2 : List GenTask
  currentTask : Option GenTask
  taskID : Nat
  lastOpened : List Int
  adirCurrentLMT : List (String × Int)
  adirPreviousLMT : List (String × Int)
  adirTaskCount : Nat
  autoscanTimedLocs : List String
  notifications : List Notif
  deriving DecidableEq, Repr

/-- Container-cache lookup (containerMap.count / containerMap[chain]). -/
def cacheLookup (m : List (String × CdsObject)) (k : String) : Option CdsObject :=
  alookupS m k

/-- Container-cache insertion (containerMap[key] = value). -/
def cacheInsert (m : List (String × CdsObject)) (k : String) (v : CdsObject) :
    List (String × CdsObject) := (k, v) :: m

/-- AutoscanDirectory::setCurrentLMT(location, value); the memo map itself
is modelled from the spec (AutoscanDirectory is outside src/). -/
def setCurrentLMT (s : CMState) (location : String) (v : Int) : CMState :=
  { s with adirCurrentLMT := (location, v) :: s.adirCurrentLMT }

/-- Modelled from the spec: AutoscanDirectory::getPreviousLMT(location)
reads the per-path memo, defaulting to 0 for a never-scanned path. -/
def getPreviousLMT (s : CMState) (location : String) : Int :=
  match alookupS s.adirPreviousLMT location with
  | some v => v
  | none => 0

/-- ContentManager::getCurrentTask. -/
def getCurrentTask (s : CMState) : Option GenTask := s.currentTask

/-- ContentManager::getTasklist (content_manager.cc lines 371-395, built
without ONLINE_SERVICES): when a current task exists it is pushed, the
valid tasks of taskQueue1 are appended, and then the loop over taskQueue2
clears the accumulated list whenever it meets a valid task. -/
def getTasklist (s : CMState) : List GenTask :=
  match getCurrentTask s with
  | none => []
  | some t =>
    let taskList := t :: s.taskQueue1.filter (fun task => task.valid)
    s.taskQueue2.foldl (fun acc task => if task.valid then [] else acc) taskList

/-- Modelled from the spec: the intended task-list snapshot, for comparison
with getTasklist - the current task followed by all valid tasks of the
high-priority queue and then of the low-priority queue; empty when there
is no current task. -/
def getTasklistIntended (s : CMState) : List GenTask :=
  match getCurrentTask s with
  | none => []
  | some t =>
    t :: (s.taskQueue1.filter (fun task => task.valid) ++
      s.taskQueue2.filter (fun task => task.valid))

/-- ContentManager::addTask: stamp the next task id and append to the
selected queue. -/
def addTask (s : CMState) (task : GenTask) (lowPriority : Bool) : CMState :=
  let t := { task with id := s.taskID }
  if !lowPriority then
    { s with taskQueue1 := s.taskQueue1 ++ [t], taskID := s.taskID + 1 }
  else
    { s with taskQueue2 := s.taskQueue2 ++ [t], taskID := s.taskID + 1 }

/-- Kind of a filesystem entry after symlink resolution (what
is_regular_file / is_directory report). -/
inductive FsKind where
  | file
  | dir
  | other
  deriving DecidableEq, Repr

/-- A directory entry as seen by a walk.  The obs* fields record the values
this loop iteration observes for shutdownFlag, task->isValid() and
adir->getScanID(): those are written concurrently by other threads in the
source, so the embedding carries the observed value per entry
(obsScanIdValid is the line-692 read, obsScanIdValidLocked the line-763
read taken under the registry lock). -/
structure DirEntry where
  path : String
  name : String
  kind : FsKind
  isSymlink : Bool
  isRelative : Bool
  mtime : Int
  obsShutdown : Bool
  obsTaskValid : Bool
  obsScanIdValid : Bool
  obsScanIdValidLocked : Bool
  deriving DecidableEq, Repr

/-- AutoScanSetting (adir modelled as a presence flag; the directory's
mutable memo state lives in CMState). -/
structure AutoScanSetting where
  adirPresent : Bool
  recursive : Bool
  hidden : Bool
  followSymlinks : Bool
  rescanResource : Bool
  deriving DecidableEq, Repr

/-- Configuration and external collaborators consumed by the core.
classifyFile models createObjectFromFile (MIME classification, UPnP class
selection and item construction - external per spec section 6);
extractMetadata models MetadataHandler::setMetadata; layout models the
layout engine as the chains it emits for an object; mergeOpts models
AutoScanSetting::mergeOptions (per-directory config merge); fsEntry and
fsChildren model filesystem directory_entry construction and directory
iteration. -/
structure Config where
  configFilename : String
  layoutMapping : List (String → String)
  followSymlinks : Bool
  hiddenFiles : Bool
  classifyFile : DirEntry → Bool → Option CdsObject
  extractMetadata : DirEntry → Metadata → Metadata
  layout : Option (CdsObject → List (List CdsObject))
  mergeOpts : String → AutoScanSetting → AutoScanSetting
  fsEntry : String → Option DirEntry
  fsChildren : String → Option (List DirEntry)

/-- The regex-replace fold over CFG_IMPORT_LAYOUT_MAPPING applied to a
chain string; each configured pattern-replacement pair is abstracted as a
string rewriting function. -/
def applyMapping (cfg : Config) (t : String) : String :=
  cfg.layoutMapping.foldl (fun acc f => f acc) t

/-- update_manager->containerChanged(id). -/
def notifyContainerChanged (s : CMState) (id : Int) : CMState :=
  { s with notifications := s.notifications ++ [Notif.containerChanged id] }

/-- session_manager->containerChangedUI(id). -/
def notifyContainerChangedUI (s : CMState) (id : Int) : CMState :=
  { s with notifications := s.notifications ++ [Notif.containerChangedUI id] }

/-- update_manager->containersChanged(ids). -/
def notifyContainersChanged (s : CMState) (ids : List Int) : CMState :=
  { s with notifications := s.notifications ++ [Notif.containersChanged ids] }

/-- session_manager->containerChangedUI(ids) for a changed-container set. -/
def notifyContainersChangedUI (s : CMState) (ids : List Int) : CMState :=
  { s with notifications := s.notifications ++ [Notif.containersChangedUI ids] }

/-- ContentManager::assignFanArt.  The function inspects and fills the
album-art resources of the given containers (through the external
MetadataHandler container-art handler) and persists resource-only changes;
resources are not part of this model, so on the modelled projection of the
state it is the identity. -/
def assignFanArt (s : CMState) (_containers : List CdsObject)
    (_origObj : Option CdsObject) : CMState := s

/-- Result of the addContainerTree chain loop: normal completion with the
terminal id, the isNew flag and the accumulated created ids, or the early
abort taken when a chain item has an empty title. -/
inductive TreeRes where
  | done (result : Int) (isNew : Bool) (created : List Int)
  | aborted
  deriving DecidableEq, Repr

/-- The loop of ContentManager::addContainerTree (content_manager.cc lines
1066-1086): extend the tree string by the item title, apply the layout
mapping, and on a cache miss ask the database for the chain, load the
terminal container and cache it under the tree key; on a hit take the
cached id.  assignFanArt runs for the container of every prefix. -/
def addContainerTreeGo (cfg : Config) :
    CMState → String → Int → List Int → Bool → List CdsObject → TreeRes × CMState
  | s, _tree, result, created, isNew, [] => (TreeRes.done result isNew created, s)
  | s, tree, result, created, isNew, item :: rest =>
    if item.title = "" then (TreeRes.aborted, s)
    else
      let t := applyMapping cfg (tree ++ "/" ++ item.title)
      match cacheLookup s.containerMap t with
      | none =>
        let md := mdSet item.metadata M_TITLE_KEY item.title
        let (db1, r, createdHere) :=
          dbAddContainerChain s.db t item.upnpClass INVALID_OBJECT_ID md
        let s1 := { s with db := db1 }
        match dbLoadObject s1.db r with
        | some cont =>
          let s2 := { s1 with containerMap := cacheInsert s1.containerMap t cont }
          let s3 := assignFanArt s2 [cont] (some item)
          addContainerTreeGo cfg s3 t r (created ++ createdHere) true rest
        | none =>
          -- unreachable against the modelled database (the terminal id is
          -- always loadable); kept to make the translation total
          addContainerTreeGo cfg s1 t r (created ++ createdHere) true rest
      | some c =>
        let s3 := assignFanArt s [c] (some item)
        addContainerTreeGo cfg s3 t c.id created isNew rest
  termination_by _ _ _ _ _ l => l.length

/-- ContentManager::addContainerTree (content_manager.cc lines 1059-1093):
run the chain loop from the empty tree string; on an empty-title abort
return (INVALID_OBJECT_ID, false); when any container was created emit one
container-changed signal (bus and UI) for the terminal id. -/
def addContainerTree (cfg : Config) (s : CMState) (chain : List CdsObject) :
    (Int × Bool) × CMState :=
  match addContainerTreeGo cfg s "" INVALID_OBJECT_ID [] false chain with
  | (TreeRes.aborted, s1) => ((INVALID_OBJECT_ID, false), s1)
  | (TreeRes.done r n created, s1) =>
    if created.isEmpty then ((r, n), s1)
    else ((r, n), notifyContainerChangedUI (notifyContainerChanged s1 r) r)

/-- ContentManager::addContainerChain (content_manager.cc lines 1095-1148):
reject an empty chain; apply the layout mapping; copy ARTIST to
ALBUMARTIST when the latter is absent; erase DESCRIPTION, TITLE,
TRACKNUMBER and ARTIST; on a cache miss set TITLE to the last chain
segment, call the database, cache every newly created container under its
location, and emit a container-changed signal for the last created id; on
a hit return the cached id with isNew = false. -/
def addContainerChain (cfg : Config) (s : CMState) (chain : String)
    (lastClass : String) (lastRefID : Int) (origObj : Option CdsObject) :
    (Except String (Int × Bool)) × CMState :=
  let lastMetadata := match origObj with
    | some o => o.metadata
    | none => []
  if chain = "" then
    (Except.error "addContainerChain() called with empty chain parameter", s)
  else
    let newChain := applyMapping cfg chain
    let md1 := match mdLookup lastMetadata M_ALBUMARTIST_KEY,
        mdLookup lastMetadata M_ARTIST_KEY with
      | none, some a => mdSet lastMetadata M_ALBUMARTIST_KEY a
      | _, _ => lastMetadata
    let md2 := mdErase (mdErase (mdErase (mdErase md1 M_DESCRIPTION_KEY)
      M_TITLE_KEY) M_TRACKNUMBER_KEY) M_ARTIST_KEY
    match cacheLookup s.containerMap newChain with
    | none =>
      let md3 := mdSet md2 M_TITLE_KEY (chainLastSegment newChain)
      let (db1, containerID, updateID) :=
        dbAddContainerChain s.db newChain lastClass lastRefID md3
      let s1 := { s with db := db1 }
      let s2 := updateID.foldl (fun st contId =>
          match dbLoadObject st.db contId with
          | some cont =>
            { st with containerMap := cacheInsert st.containerMap cont.location cont }
          | none => st) s1
      if updateID.isEmpty then (Except.ok (containerID, true), s2)
      else
        let s3 := assignFanArt s2 [] origObj
        let s4 := notifyContainerChanged s3 (updateID.getLastD INVALID_OBJECT_ID)
        let s5 := notifyContainerChangedUI s4 (updateID.getLastD INVALID_OBJECT_ID)
        (Except.ok (containerID, true), s5)
    | some c =>
      -- updateID stays empty here, so the fan-art and notification block
      -- (guarded by !updateID.empty()) is skipped
      (Except.ok (c.id, false), s)

/-- Slash-join a segment list. -/
def joinSlash : List String → String
  | [] => ""
  | [s] => s
  | s :: rest => s ++ "/" ++ joinSlash rest

/-- fs::path::parent_path().string(): drop the last slash-separated
component. -/
def parentPathOf (p : String) : String :=
  joinSlash (((splitSlash p.data).map (fun l => String.mk l)).dropLast)

/-- The CMAddFileTask constructor plus ContentManager::addTask for the
async branch of addFileInternal (content_manager.cc lines 1428-1434 and
1824-1836): the constructor bumps the autoscan directory's task count when
one is attached; the task records the entry path, the parent task id and
the "Importing" description and is appended to the selected queue. -/
def addFileAsyncEnqueue (s : CMState) (e : DirEntry) (st : AutoScanSetting)
    (lowPriority : Bool) (parentTaskID : Nat) (cancellable : Bool) : CMState :=
  let s1 := if st.adirPresent then { s with adirTaskCount := s.adirTaskCount + 1 } else s
  let task : GenTask :=
    { id := 0, parentId := parentTaskID, valid := true, taskType := TaskType.AddFile,
      path := e.path, cancellable := cancellable,
      description := "Importing: " ++ e.path }
  addTask s1 task lowPriority

/-- ContentManager::_removeObject instantiated with rescanResource = false
(content_manager.cc lines 530-560 without the lines 540-546 block).  This
is the form the inner call in updateAttachedResources uses; the general
entry point removeObjectImpl below adds the rescanResource block. -/
def removeObjectImplNR (s : CMState) (objectID : Int) (all : Bool) :
    (Except String Unit) × CMState :=
  if objectID = CDS_ID_ROOT then
    (Except.error "cannot remove root container", s)
  else if objectID = CDS_ID_FS_ROOT then
    (Except.error "cannot remove PC-Directory container", s)
  else if IS_FORBIDDEN_CDS_ID objectID then
    (Except.error "tried to remove illegal object id", s)
  else
    let s1 := { s with containerMap := [] }
    let (db1, changed) := dbRemoveObject s1.db objectID all
    let s2 := { s1 with db := db1 }
    let s3 := notifyContainersChangedUI s2 changed.ui
    let s4 := notifyContainersChanged s3 changed.upnp
    (Except.ok (), s4)

/-- ContentManager::updateAttachedResources (content_manager.cc lines
500-528): look up the parent directory object; remove it through
_removeObject with rescanResource = false; reset its current-lmt memo to 1
so that the next scan re-walks everything; enqueue an async recursive
re-add of the parent directory (through the async branch of
addFileInternal, which only builds and enqueues the task). -/
def updateAttachedResources (cfg : Config) (s : CMState) (adirPresent : Bool)
    (parentPath : String) (all : Bool) : (Except String Bool) × CMState :=
  let parentID := dbFindIdByPath s.db parentPath
  if parentID != INVALID_OBJECT_ID then
    match removeObjectImplNR s parentID all with
    | (Except.error e, s1) => (Except.error e, s1)
    | (Except.ok _, s1) =>
      let s2 := if adirPresent then setCurrentLMT s1 parentPath 1 else s1
      let asSetting0 : AutoScanSetting :=
        { adirPresent := adirPresent, recursive := true, hidden := cfg.hiddenFiles,
          followSymlinks := cfg.followSymlinks, rescanResource := false }
      let asSetting := cfg.mergeOpts parentPath asSetting0
      match cfg.fsEntry parentPath with
      | some dirEntry =>
        (Except.ok true, addFileAsyncEnqueue s2 dirEntry asSetting true 0 false)
      | none => (Except.ok false, s2)
  else (Except.ok false, s)

/-- ContentManager::_removeObject (content_manager.cc lines 530-560):
reject the sentinel ids; when rescanResource is set and the target has an
attached CH_RESOURCE resource, remove and re-add the parent directory
instead; always clear the container cache; unless the parent removal took
over, remove the object from the database and fan out the changed
containers to the session manager and the update bus. -/
def removeObjectImpl (cfg : Config) (s : CMState) (adirPresent : Bool)
    (objectID : Int) (rescanResource all : Bool) : (Except String Unit) × CMState :=
  if objectID = CDS_ID_ROOT then
    (Except.error "cannot remove root container", s)
  else if objectID = CDS_ID_FS_ROOT then
    (Except.error "cannot remove PC-Directory container", s)
  else if IS_FORBIDDEN_CDS_ID objectID then
    (Except.error "tried to remove illegal object id", s)
  else
    match (if rescanResource then
        match dbLoadObject s.db objectID with
        | some obj =>
          if obj.hasResourceCH then
            updateAttachedResources cfg s adirPresent (parentPathOf obj.location) all
          else (Except.ok false, s)
        | none => (Except.ok false, s)
      else (Except.ok false, s)) with
    | (Except.error e, s1) => (Except.error e, s1)
    | (Except.ok parentRemoved, s1) =>
      let s2 := { s1 with containerMap := [] }
      if parentRemoved then (Except.ok (), s2)
      else
        let (db1, changed) := dbRemoveObject s2.db objectID all
        let s3 := { s2 with db := db1 }
        let s4 := notifyContainersChangedUI s3 changed.ui
        let s5 := notifyContainersChanged s4 changed.upnp
        (Except.ok (), s5)

/-- ContentManager::addObject (content_manager.cc lines 1025-1052): add to
the database, signal the changed container, run the first-child detection
(the flag survives only if the parent now has exactly one child) and
signal the grandparent, then signal the parent. -/
def addObject (s : CMState) (obj : CdsObject) (firstChild : Bool) :
    CMState × CdsObject :=
  let (db1, o, containerChanged) := dbAddObject s.db obj
  let s1 := { s with db := db1 }
  let s2 := notifyContainerChanged s1 containerChanged
  let s3 := notifyContainerChangedUI s2 containerChanged
  let parentId := o.parentId
  let firstChild1 := firstChild && (dbChildCount s3.db parentId == 1)
  let s4 := if parentId != -1 && firstChild1 then
      match dbLoadObject s3.db parentId with
      | some parent => notifyContainerChanged s3 parent.parentId
      | none => s3
    else s3
  let s5 := notifyContainerChanged s4 parentId
  let s6 := if o.isContainer then notifyContainerChangedUI s5 parentId else s5
  (s6, o)

/-- The layout block of createSingleItem (content_manager.cc lines
448-468): feed the item through the layout engine, which materializes its
virtual placement by calling addContainerTree for every chain it emits;
layout errors are caught and logged, and the playlist branch is the
non-JS build (a log line only). -/
def layoutProcess (cfg : Config) (s : CMState) (obj : CdsObject) : CMState :=
  match cfg.layout with
  | none => s
  | some lf => (lf obj).foldl (fun st chain => (addContainerTree cfg st chain).2) s

/-- ContentManager::createSingleItem (content_manager.cc lines 430-470):
look the entry up in the database when asked; when absent, classify it
into a new object (createObjectFromFile) and, if it is an item, add it to
the database; when present and processExisting, re-extract its metadata;
then run the layout for items that are new or re-processed. -/
def createSingleItem (cfg : Config) (s : CMState) (e : DirEntry)
    (_rootPath : String) (followSymlinks checkDatabase processExisting firstChild : Bool) :
    Option CdsObject × CMState :=
  match (if checkDatabase then dbFindByPath s.db e.path else none) with
  | none =>
    match cfg.classifyFile e followSymlinks with
    | none => (none, s)
    | some newObj =>
      if newObj.isItem then
        let (s1, o) := addObject s newObj firstChild
        (some o, layoutProcess cfg s1 o)
      else (some newObj, s)
  | some obj =>
    if obj.isItem && processExisting then
      let o := { obj with metadata := cfg.extractMetadata e obj.metadata }
      (some o, layoutProcess cfg s o)
    else (some obj, s)

/-- ContentManager::finishScan (content_manager.cc lines 893-903): when an
autoscan directory is attached, write the current-lmt memo for the
location (the scan maximum, or 1 when it is not positive), and when the
parent container exists and the maximum is positive, stamp the parent's
mtime and persist it. -/
def finishScan (s : CMState) (adirPresent : Bool) (location : String)
    (parent : Option CdsObject) (lmt : Int) : CMState :=
  if adirPresent then
    let s1 := setCurrentLMT s location (if 0 < lmt then lmt else 1)
    match parent with
    | some p =>
      if 0 < lmt then { s1 with db := dbUpdateObject s1.db { p with mtime := lmt } }
      else s1
    | none => s1
  else s

/-- The directory loop of ContentManager::addRecursive (content_manager.cc
lines 849-888), with the recursion into subdirectories supplied as an
argument.  Carries the running state, the first-child flag, the running
mtime maximum and the parent id; breaks on shutdown or task invalidation;
per-child errors of the recursion are caught and logged in the source, so
the loop continues with the partial state. -/
def addRecursiveLoop (cfg : Config)
    (recurse : CMState → DirEntry → (Except String Unit) × CMState)
    (taskPresent followSymlinks hidden : Bool) (prevLM : Int) :
    CMState → Bool → Int → Int → List DirEntry → CMState × Int × Int
  | s, _firstChild, newMax, parentID, [] => (s, newMax, parentID)
  | s, firstChild, newMax, parentID, e :: rest =>
    if nameStartsWithDot e.name && !hidden then
      addRecursiveLoop cfg recurse taskPresent followSymlinks hidden prevLM
        s firstChild newMax parentID rest
    else if e.obsShutdown || (taskPresent && !e.obsTaskValid) then
      (s, newMax, parentID)
    else if cfg.configFilename = e.path then
      addRecursiveLoop cfg recurse taskPresent followSymlinks hidden prevLM
        s firstChild newMax parentID rest
    else
      let (obj?, s1) := createSingleItem cfg s e "" followSymlinks
        (decide (0 < parentID)) true firstChild
      match obj? with
      | none =>
        addRecursiveLoop cfg recurse taskPresent followSymlinks hidden prevLM
          s1 firstChild newMax parentID rest
      | some obj =>
        let newMax1 := if prevLM < e.mtime then e.mtime else newMax
        let parentID1 := if obj.isItem then obj.parentId else parentID
        let s2 := if obj.isContainer then (recurse s1 e).2 else s1
        addRecursiveLoop cfg recurse taskPresent followSymlinks hidden prevLM
          s2 false newMax1 parentID1 rest

/-- The body of ContentManager::addRecursive (content_manager.cc lines
797-891) parameterized by the subdirectory recursion: list the directory
(throwing when it cannot be listed), resolve the parent container, read
and reset the lmt memo when an autoscan directory is attached, run the
loop and finish the scan (built without HAVE_INOTIFY). -/
def addRecursiveBody (cfg : Config)
    (recurse : CMState → DirEntry → (Except String Unit) × CMState)
    (s : CMState) (adirPresent taskPresent : Bool) (subDir : DirEntry)
    (followSymlinks hidden : Bool) : (Except String Unit) × CMState :=
  match cfg.fsChildren subDir.path with
  | none => (Except.error ("Could not list directory " ++ subDir.path), s)
  | some children =>
    let parentID := dbFindIdByPath s.db subDir.path
    let parentContainer : Option CdsObject :=
      if parentID != INVALID_OBJECT_ID then
        match dbLoadObject s.db parentID with
        | some obj => if obj.isContainer then some obj else none
        | none => none
      else none
    let prevLM := if adirPresent then getPreviousLMT s subDir.path else 0
    let s0 := if adirPresent then setCurrentLMT s subDir.path 0 else s
    let (s1, newMax, _) := addRecursiveLoop cfg recurse taskPresent followSymlinks
      hidden prevLM s0 true prevLM parentID children
    (Except.ok (), finishScan s1 adirPresent subDir.path parentContainer newMax)

/-- ContentManager::addRecursive, with the filesystem recursion bounded by
an explicit fuel (the source recursion is bounded by the directory tree
depth; the claims never exercise the bound). -/
def addRecursive (cfg : Config) :
    Nat → CMState → Bool → Bool → DirEntry → Bool → Bool → (Except String Unit) × CMState
  | 0, s, adirPresent, taskPresent, subDir, followSymlinks, hidden =>
    addRecursiveBody cfg (fun st _ => (Except.ok (), st)) s adirPresent taskPresent
      subDir followSymlinks hidden
  | fuel + 1, s, adirPresent, taskPresent, subDir, followSymlinks, hidden =>
    addRecursiveBody cfg
      (fun st d => addRecursive cfg fuel st adirPresent taskPresent d followSymlinks hidden)
      s adirPresent taskPresent subDir followSymlinks hidden

/-- ContentManager::_addFile (content_manager.cc lines 472-498): ignore
relative paths unless hidden files are allowed and ignore the server
configuration file; create or look up the single item; recurse when
requested and the object is a container; when rescanResource is set and
the object carries an attached resource, remove and re-add the parent
directory; return the object id. -/
def addFileImpl (cfg : Config) (fuel : Nat) (s : CMState) (e : DirEntry)
    (rootpath : String) (st : AutoScanSetting) : (Except String Int) × CMState :=
  if !st.hidden && e.isRelative then (Except.ok INVALID_OBJECT_ID, s)
  else if cfg.configFilename = e.path then (Except.ok INVALID_OBJECT_ID, s)
  else
    let (obj?, s1) := createSingleItem cfg s e rootpath st.followSymlinks true false false
    match obj? with
    | none => (Except.ok INVALID_OBJECT_ID, s1)
    | some obj =>
      match (if st.recursive && obj.isContainer then
          addRecursive cfg fuel s1 st.adirPresent false e st.followSymlinks st.hidden
        else (Except.ok (), s1)) with
      | (Except.error m, s2) => (Except.error m, s2)
      | (Except.ok _, s2) =>
        match (if st.rescanResource && obj.hasResourceCH then
            updateAttachedResources cfg s2 st.adirPresent (parentPathOf e.path) true
          else (Except.ok false, s2)) with
        | (Except.error m, s3) => (Except.error m, s3)
        | (Except.ok _, s3) => (Except.ok obj.id, s3)

/-- ContentManager::addFileInternal (content_manager.cc lines 1425-1437):
the async variant only builds a CMAddFileTask, enqueues it and returns
INVALID_OBJECT_ID; the synchronous variant runs _addFile. -/
def addFileInternal (cfg : Config) (fuel : Nat) (s : CMState) (e : DirEntry)
    (rootpath : String) (st : AutoScanSetting) (async lowPriority : Bool)
    (parentTaskID : Nat) (cancellable : Bool) : (Except String Int) × CMState :=
  if async then
    (Except.ok INVALID_OBJECT_ID, addFileAsyncEnqueue s e st lowPriority parentTaskID cancellable)
  else addFileImpl cfg fuel s e rootpath st

/-- ContentManager::addFile (content_manager.cc lines 1412-1418): derive
the root path from directory entries and defer to addFileInternal with
parent task id 0. -/
def addFile (cfg : Config) (fuel : Nat) (s : CMState) (e : DirEntry)
    (st : AutoScanSetting) (async lowPriority cancellable : Bool) :
    (Except String Int) × CMState :=
  let rootpath := if e.kind = FsKind.dir then e.path else ""
  addFileInternal cfg fuel s e rootpath st async lowPriority 0 cancellable

/-- ContentManager::invalidateAddTask (content_manager.cc lines
1490-1500): invalidate an AddFile task whose path is the removed path or
a descendant of it. -/
def invalidateAddTask (t : GenTask) (path : String) : GenTask :=
  match t.taskType with
  | TaskType.AddFile =>
    if strStarts path t.path then { t with valid := false } else t
  | _ => t

/-- ContentManager::removeObject (content_manager.cc lines 1531-1594).
The async branch loads the target (a load failure is caught and the call
returns), and for containers detaches every timed autoscan entry under the
target path (timer unsubscription is external; built without HAVE_INOTIFY)
and invalidates every queued or current AddFile task under the path, then
enqueues a CMRemoveObjectTask; the sync branch runs _removeObject. -/
def removeObject (cfg : Config) (s : CMState) (adirPresent : Bool)
    (objectID : Int) (rescanResource async all : Bool) : (Except String Unit) × CMState :=
  if async then
    match dbLoadObject s.db objectID with
    | none => (Except.ok (), s)
    | some obj =>
      let s1 := if obj.isContainer then
          let sa :=
            { s with autoscanTimedLocs :=
                s.autoscanTimedLocs.filter (fun loc => !(strStarts obj.location loc)) }
          { sa with
            taskQueue1 := sa.taskQueue1.map (fun t => invalidateAddTask t obj.location),
            taskQueue2 := sa.taskQueue2.map (fun t => invalidateAddTask t obj.location),
            currentTask := sa.currentTask.map (fun t => invalidateAddTask t obj.location) }
        else s
      let task : GenTask :=
        { id := 0, parentId := 0, valid := true, taskType := TaskType.RemoveObjectTask,
          path := obj.location, cancellable := false, description := "" }
      (Except.ok (), addTask s1 task false)
  else removeObjectImpl cfg s adirPresent objectID rescanResource all

/-- ContentManager::rescanDirectory (content_manager.cc lines 1596-1609):
bump the autoscan task count and enqueue a CMRescanDirectoryTask at low
priority with a "Scan" description. -/
def rescanDirectoryEnqueue (s : CMState) (_objectId : Int) (descPath : String)
    (cancellable : Bool) (adirLocation : String) : CMState :=
  let s1 := { s with adirTaskCount := s.adirTaskCount + 1 }
  let dp := if descPath = "" then adirLocation else descPath
  let task : GenTask :=
    { id := 0, parentId := 0, valid := true, taskType := TaskType.RescanDirectoryTask,
      path := "", cancellable := cancellable, description := "Scan: " ++ dp }
  addTask s1 task true

/-- Catalog-affecting actions a rescan walk performs, recorded alongside
the state so that the per-entry behaviour can be observed. -/
inductive WalkAction where
  | removedObject (id : Int)
  | addedFile (path : String)
  | enqueuedRemoveTask (id : Int)
  | enqueuedRescanTask (id : Int)
  | enqueuedAddTask (path : String)
  | removedStaleObjects (ids : List Int)
  deriving DecidableEq, Repr

/-- The loop-invariant inputs of a _rescanDirectory walk: the autoscan
directory's recursive and hidden flags, the scanned location, the autoscan
root path (rootpath, line 580), the resolved parent container, the task
handle data, the re-read shutdown and task-validity observations of line
784, and the recursion fuel handed to synchronous adds. -/
structure WalkParams where
  adirRecursive : Bool
  adirHidden : Bool
  location : String
  rootpath : String
  parent : Option CdsObject
  taskPresent : Bool
  taskId : Nat
  taskCancellable : Bool
  finalShutdown : Bool
  finalTaskValid : Bool
  fuel : Nat
  deriving DecidableEq, Repr

/-- The AutoScanSetting the walk re-derives at every iteration
(content_manager.cc lines 657-662 and 709-712; its inputs are constant
across the loop, so it is one value). -/
def walkSetting (cfg : Config) (P : WalkParams) : AutoScanSetting :=
  cfg.mergeOpts P.location
    { adirPresent := true, recursive := P.adirRecursive, hidden := P.adirHidden,
      followSymlinks := cfg.followSymlinks, rescanResource := false }

/-- Loop-carried state of a rescan walk: the manager state, the running
mtime maximum (last_modified_new_max) and the remaining known child ids
(the list variable). -/
structure RescanLoopState where
  cm : CMState
  newMax : Int
  known : Option (List Int)
  deriving DecidableEq, Repr

/-- Outcome of one loop iteration of _rescanDirectory: continue with new
state and recorded actions, break out of the loop (shutdown or invalid
task), return early through finishScan (scan id observed INVALID), or
propagate an exception. -/
inductive StepRes where
  | cont (ls : RescanLoopState) (acts : List WalkAction)
  | brk
  | ret (ls : RescanLoopState)
  | err (msg : String) (st : CMState)
  deriving DecidableEq, Repr

/-- One iteration of the _rescanDirectory walk over a directory entry
(content_manager.cc lines 680-780): skip hidden names, break on shutdown
or task invalidation, return early when the scan id was invalidated,
remove unfollowed symlinks from the catalog, reconcile regular files
against the database by mtime (remove and re-add strictly newer files,
add unknown files), and for directories in recursive mode enqueue a
sub-rescan for known ones or (after re-checking the scan id under the
registry lock) an async recursive add for unknown ones. -/
def rescanStep (cfg : Config) (P : WalkParams) (prev : Int)
    (ls : RescanLoopState) (e : DirEntry) : StepRes :=
  let st := walkSetting cfg P
  if nameStartsWithDot e.name && !st.hidden then StepRes.cont ls []
  else if e.obsShutdown || (P.taskPresent && !e.obsTaskValid) then StepRes.brk
  else if !e.obsScanIdValid then StepRes.ret ls
  else if !st.followSymlinks && e.isSymlink then
    let objectID := dbFindIdByPath ls.cm.db e.path
    if 0 < objectID then
      let known1 := ls.known.map (fun l => l.erase objectID)
      let s1 := (removeObject cfg ls.cm true objectID false true false).2
      StepRes.cont { cm := s1, newMax := ls.newMax, known := known1 }
        [WalkAction.enqueuedRemoveTask objectID]
    else StepRes.cont ls []
  else
    match e.kind with
    | FsKind.file =>
      let objectID := dbFindIdByPath ls.cm.db e.path
      if 0 < objectID then
        let known1 := ls.known.map (fun l => l.erase objectID)
        if prev < e.mtime then
          match removeObjectImpl cfg ls.cm true objectID false false with
          | (Except.error m, s1) => StepRes.err m s1
          | (Except.ok _, s1) =>
            let st1 := { st with recursive := false, rescanResource := false }
            match addFileInternal cfg P.fuel s1 e P.rootpath st1 false false 0 false with
            | (Except.error m, s2) => StepRes.err m s2
            | (Except.ok _, s2) =>
              let newMax1 := if ls.newMax < e.mtime then e.mtime else ls.newMax
              StepRes.cont { cm := s2, newMax := newMax1, known := known1 }
                [WalkAction.removedObject objectID, WalkAction.addedFile e.path]
        else StepRes.cont { ls with known := known1 } []
      else
        let st1 := { st with recursive := false, rescanResource := false }
        match addFileInternal cfg P.fuel ls.cm e P.rootpath st1 false false 0 false with
        | (Except.error m, s2) => StepRes.err m s2
        | (Except.ok _, s2) =>
          let newMax1 := if ls.newMax < e.mtime then e.mtime else ls.newMax
          StepRes.cont { cm := s2, newMax := newMax1, known := ls.known }
            [WalkAction.addedFile e.path]
    | FsKind.dir =>
      if st.recursive then
        let objectID := dbFindIdByPath ls.cm.db e.path
        let newMax1 := if ls.newMax < e.mtime then e.mtime else ls.newMax
        if 0 < objectID then
          let known1 := ls.known.map (fun l => l.erase objectID)
          let s1 := rescanDirectoryEnqueue ls.cm objectID e.path P.taskCancellable P.rootpath
          StepRes.cont { cm := s1, newMax := newMax1, known := known1 }
            [WalkAction.enqueuedRescanTask objectID]
        else
          if !e.obsScanIdValidLocked then StepRes.ret { ls with newMax := newMax1 }
          else
            let st2 := cfg.mergeOpts e.path { st with recursive := true, rescanResource := false }
            let s2 := (addFileInternal cfg P.fuel ls.cm e P.rootpath st2 true true
              P.taskId P.taskCancellable).2
            StepRes.cont { cm := s2, newMax := newMax1, known := ls.known }
              [WalkAction.enqueuedAddTask e.path]
      else StepRes.cont ls []
    | FsKind.other => StepRes.cont ls []

/-- The code after the _rescanDirectory loop (content_manager.cc lines
782-793): finishScan, then - unless shutdown or task invalidation is
re-observed - batch-remove whatever known ids were not encountered and fan
out the changed containers. -/
def rescanFinish (cfg : Config) (P : WalkParams) (ls : RescanLoopState) :
    (Except String Unit) × CMState × List WalkAction :=
  let _ := cfg
  let s1 := finishScan ls.cm true P.location P.parent ls.newMax
  if P.finalShutdown || (P.taskPresent && !P.finalTaskValid) then (Except.ok (), s1, [])
  else
    match ls.known with
    | some known =>
      if !known.isEmpty then
        let (db1, changed) := dbRemoveObjects s1.db known
        let s2 := { s1 with db := db1 }
        let s3 := notifyContainersChangedUI s2 changed.ui
        let s4 := notifyContainersChanged s3 changed.upnp
        (Except.ok (), s4, [WalkAction.removedStaleObjects known])
      else (Except.ok (), s1, [])
    | none => (Except.ok (), s1, [])

/-- The _rescanDirectory loop over the remaining directory entries: a
continue recurses, a break falls through to the post-loop code, an early
return runs finishScan and nothing else, an exception propagates. -/
def rescanGo (cfg : Config) (P : WalkParams) (prev : Int) :
    RescanLoopState → List DirEntry → (Except String Unit) × CMState × List WalkAction
  | ls, [] => rescanFinish cfg P ls
  | ls, e :: rest =>
    match rescanStep cfg P prev ls e with
    | StepRes.cont ls1 acts =>
      let (r, s, acts2) := rescanGo cfg P prev ls1 rest
      (r, s, acts ++ acts2)
    | StepRes.brk => rescanFinish cfg P ls
    | StepRes.ret ls1 =>
      (Except.ok (), finishScan ls1.cm true P.location P.parent ls1.newMax, [])
    | StepRes.err m st => (Except.error m, st, [])

/-- The walk portion of ContentManager::_rescanDirectory
(content_manager.cc lines 666-794), entered with the container resolved:
load the known children (items only for a non-recursive scan), read the
previous-lmt memo, seed the running maximum with it, reset the current-lmt
memo to 0 and run the loop. -/
def rescanLoop (cfg : Config) (P : WalkParams) (s : CMState) (containerID : Int)
    (entries : List DirEntry) : (Except String Unit) × CMState × List WalkAction :=
  let st := walkSetting cfg P
  let known := some (dbGetObjects s.db containerID (!st.recursive))
  let prev := getPreviousLMT s P.location
  let s0 := setCurrentLMT s P.location 0
  rescanGo cfg P prev { cm := s0, newMax := prev, known := known } entries

/-- The lastOpened update of PlayHookHandler::operator()
(playhook_handler.cc lines 15-28): erase the played object's parent id
when present, push it at the front, and pop the back when the list exceeds
the limit of 5.  operator() first calls ContentManager::triggerPlayHook,
which only updates the object's PLAYED flag (content_manager.cc lines
1799-1822) and never touches lastOpened. -/
def playHookMru (lastOpened : List Int) (parentId : Int) : List Int :=
  let l1 := if lastOpened.contains parentId then lastOpened.erase parentId else lastOpened
  let l2 := parentId :: l1
  if 5 < l2.length then l2.dropLast else l2

/-- PlayHookHandler::operator() as a state update (the PLAYED-flag side of
triggerPlayHook acts on object flags, which are outside this model). -/
def playHookHandler (s : CMState) (obj : CdsObject) : CMState :=
  { s with lastOpened := playHookMru s.lastOpened obj.parentId }

/-- An empty manager state over an empty database (the id sequence starts
past the sentinels). -/
def emptyCM : CMState :=
  { containerMap := [], db := { objects := [], nextId := 2 }, taskQueue1 := [],
    taskQueue2 := [], currentTask := none, taskID := 0, lastOpened := [],
    adirCurrentLMT := [], adirPreviousLMT := [], adirTaskCount := 0,
    autoscanTimedLocs := [], notifications := [] }

/-- A default configuration: no layout mapping, no layout engine, no
per-directory option overrides, nothing classifiable, empty filesystem. -/
def cfg0 : Config :=
  { configFilename := "/etc/gerbera/config.xml", layoutMapping := [],
    followSymlinks := false, hiddenFiles := false,
    classifyFile := fun _ _ => none, extractMetadata := fun _ m => m,
    layout := none, mergeOpts := fun _ a => a, fsEntry := fun _ => none,
    fsChildren := fun _ => none }

/-- A current task for the C1 scheduler-state evidence. -/
def exTask0 : GenTask :=
  { id := 1, parentId := 0, valid := true, taskType := TaskType.RescanDirectoryTask,
    path := "", cancellable := true, description := "Scan: /m" }

/-- A valid low-priority task for the C1 scheduler-state evidence. -/
def exTask1 : GenTask :=
  { id := 2, parentId := 0, valid := true, taskType := TaskType.AddFile,
    path := "/m/a.mp3", cancellable := true, description := "Importing: /m/a.mp3" }

/-- Scheduler state with a current task, an empty high-priority queue and
one valid low-priority task. -/
def exTasklistState : CMState :=
  { emptyCM with currentTask := some exTask0, taskQueue2 := [exTask1] }

/-- C1: get_task_list is specified to return the current task followed by
all valid tasks of the high-priority and then the low-priority queue.  The
source instead clears the accumulated list whenever the low-priority queue
holds a valid task: at a state with a current task and one valid
low-priority task, getTasklist returns the empty list while the intended
snapshot is both tasks.  This is the code bug the spec itself flags. -/
theorem getTasklist_clears_on_valid_lo_task :
    getTasklist exTasklistState = [] ∧
    getTasklistIntended exTasklistState = [exTask0, exTask1] := by
  constructor <;> rfl

/-- C10: addFileInternal called with async = true only enqueues a task and
returns INVALID_OBJECT_ID, for every input. -/
theorem addFileInternal_async_returns_invalid (cfg : Config) (fuel : Nat)
    (s : CMState) (e : DirEntry) (rootpath : String) (st : AutoScanSetting)
    (lowPriority : Bool) (parentTaskID : Nat) (cancellable : Bool) :
    (addFileInternal cfg fuel s e rootpath st true lowPriority parentTaskID
      cancellable).1 = Except.ok INVALID_OBJECT_ID := rfl

/-- C7: _removeObject rejects ROOT, FS_ROOT and every id of the forbidden
range with an error, and the failed call leaves the state (database and
container cache included) unchanged. -/
theorem removeObjectImpl_sentinel_fails (cfg : Config) (s : CMState)
    (adirPresent : Bool) (objectID : Int) (rescanResource all : Bool)
    (h : objectID = CDS_ID_ROOT ∨ objectID = CDS_ID_FS_ROOT ∨
      IS_FORBIDDEN_CDS_ID objectID = true) :
    ∃ msg, removeObjectImpl cfg s adirPresent objectID rescanResource all =
      (Except.error msg, s) := by
  by_cases h0 : objectID = CDS_ID_ROOT
  · exact ⟨"cannot remove root container", by simp [removeObjectImpl, h0]⟩
  · by_cases h1 : objectID = CDS_ID_FS_ROOT
    · exact ⟨"cannot remove PC-Directory container", by
        simp [removeObjectImpl, h0, h1, CDS_ID_ROOT, CDS_ID_FS_ROOT]⟩
    · have h2 : IS_FORBIDDEN_CDS_ID objectID = true := by
        rcases h with h | h | h
        · exact absurd h h0
        · exact absurd h h1
        · exact h
      exact ⟨"tried to remove illegal object id", by simp [removeObjectImpl, h0, h1, h2]⟩

/-- Witness for C7 at the concrete input ROOT over a nonempty cache. -/
def exCacheState : CMState :=
  { emptyCM with containerMap := [("/Audio",
      { id := 7, parentId := 0, refId := -1, title := "Audio",
        upnpClass := "object.container", location := "/Audio", mtime := 0,
        metadata := [], isContainer := true, hasResourceCH := false })] }

theorem removeObjectImpl_sentinel_fails_witness :
    ∃ msg, removeObjectImpl cfg0 exCacheState true 0 false false =
      (Except.error msg, exCacheState) :=
  removeObjectImpl_sentinel_fails cfg0 exCacheState true 0 false false (Or.inl rfl)

/-- The play-hook step in closed form: erase the parent id and push it in
front, truncated to the bound of 5 (valid from any state within the
bound). -/
lemma playHookMru_take (l : List Int) (p : Int) (h : l.length ≤ 5) :
    playHookMru l p = (p :: l.erase p).take 5 := by
  have hl1 : (if l.contains p then l.erase p else l) = l.erase p := by
    by_cases hm : p ∈ l
    · rw [if_pos (by simpa using hm)]
    · rw [if_neg (by simpa using hm)]
      exact (List.erase_of_not_mem hm).symm
  have hlen : (l.erase p).length ≤ l.length := by
    by_cases hm : p ∈ l
    · rw [List.length_erase_of_mem hm]; omega
    · rw [List.erase_of_not_mem hm]
  simp only [playHookMru]
  rw [hl1]
  by_cases h5 : 5 < (p :: l.erase p).length
  · rw [if_pos h5, List.dropLast_eq_take]
    have h6 : (p :: l.erase p).length = 6 := by
      simp only [List.length_cons] at h5 ⊢
      omega
    rw [h6]
  · rw [if_neg h5, List.take_of_length_le (by omega)]

/-- C9: the play-hook keeps last_opened as a bounded MRU of parent ids:
from any state within the bound, the step erases the played object's
parent id if present, pushes it at the front and truncates to length 5;
in particular play events on items whose parents are p1, p2, p1, p3, p4,
p5, p6 in order leave last_opened equal to [p6, p5, p4, p3, p1]. -/
theorem playHook_mru_spec :
    (∀ (l : List Int) (p : Int), l.length ≤ 5 →
      playHookMru l p = (p :: l.erase p).take 5) ∧
    (∀ p1 p2 p3 p4 p5 p6 : Int, List.Nodup [p1, p2, p3, p4, p5, p6] →
      List.foldl playHookMru [] [p1, p2, p1, p3, p4, p5, p6] =
        [p6, p5, p4, p3, p1]) := by
  refine ⟨fun l p h => playHookMru_take l p h, ?_⟩
  intro p1 p2 p3 p4 p5 p6 hnd
  simp only [List.nodup_cons, List.mem_cons, List.mem_singleton,
    List.not_mem_nil, or_false, List.nodup_nil, and_true] at hnd
  push_neg at hnd
  obtain ⟨⟨h12, h13, h14, h15, h16⟩, ⟨h23, h24, h25, h26⟩, ⟨h34, h35, h36⟩,
    ⟨h45, h46⟩, h56, -⟩ := hnd
  have e1 : playHookMru [] p1 = [p1] := by
    rw [playHookMru_take _ _ (by simp)]; rfl
  have e2 : playHookMru [p1] p2 = [p2, p1] := by
    rw [playHookMru_take _ _ (by simp)]
    simp [List.erase_cons, h12]
  have e3 : playHookMru [p2, p1] p1 = [p1, p2] := by
    rw [playHookMru_take _ _ (by simp)]
    simp [List.erase_cons, Ne.symm h12]
  have e4 : playHookMru [p1, p2] p3 = [p3, p1, p2] := by
    rw [playHookMru_take _ _ (by simp)]
    simp [List.erase_cons, h13, h23]
  have e5 : playHookMru [p3, p1, p2] p4 = [p4, p3, p1, p2] := by
    rw [playHookMru_take _ _ (by simp)]
    simp [List.erase_cons, h34, h14, h24]
  have e6 : playHookMru [p4, p3, p1, p2] p5 = [p5, p4, p3, p1, p2] := by
    rw [playHookMru_take _ _ (by simp)]
    simp [List.erase_cons, h45, h35, h15, h25]
  have e7 : playHookMru [p5, p4, p3, p1, p2] p6 = [p6, p5, p4, p3, p1] := by
    rw [playHookMru_take _ _ (by simp)]
    simp [List.erase_cons, h56, h46, h36, h16, h26]
  simp only [List.foldl, e1, e2, e3, e4, e5, e6, e7]

/-- Witness for C9 at the concrete parent ids 1, 2, 1, 3, 4, 5, 6. -/
theorem playHook_mru_spec_witness :
    List.foldl playHookMru [] [1, 2, 1, 3, 4, 5, 6] = [6, 5, 4, 3, 1] :=
  playHook_mru_spec.2 1 2 3 4 5 6 (by decide)

/-- A filtered-out key is gone from lookup. -/
lemma alookupS_filter_self {β : Type} (k : String) :
    ∀ m : List (String × β), alookupS (m.filter (fun e => e.1 != k)) k = none := by
  intro m
  induction m with
  | nil => rfl
  | cons e rest ih =>
    rcases e with ⟨k1, v1⟩
    by_cases he : k1 = k
    · have hf : ((k1, v1).1 != k) = false := by simp [he]
      rw [List.filter_cons, hf]
      simpa using ih
    · have hf : ((k1, v1).1 != k) = true := by simp [he]
      rw [List.filter_cons, hf]
      simpa [alookupS, he] using ih

/-- Filtering one key out leaves lookups of other keys alone. -/
lemma alookupS_filter_ne {β : Type} (k q : String) (h : q ≠ k) :
    ∀ m : List (String × β), alookupS (m.filter (fun e => e.1 != k)) q = alookupS m q := by
  intro m
  induction m with
  | nil => rfl
  | cons e rest ih =>
    rcases e with ⟨k1, v1⟩
    by_cases he : k1 = k
    · have hf : ((k1, v1).1 != k) = false := by simp [he]
      have hq1 : ¬ (k1 = q) := by rw [he]; exact fun hh => h hh.symm
      rw [List.filter_cons]
      simp only [hf, Bool.false_eq_true, if_false, ih]
      simp [alookupS, hq1]
    · have hf : ((k1, v1).1 != k) = true := by simp [he]
      rw [List.filter_cons]
      simp only [hf, if_true]
      by_cases hq1 : k1 = q
      · simp [alookupS, hq1]
      · simpa [alookupS, hq1] using ih

/-- Erasing a key removes it from lookup. -/
lemma mdLookup_mdErase_self (m : Metadata) (k : String) :
    mdLookup (mdErase m k) k = none := alookupS_filter_self k m

/-- Erasing one key leaves the others alone. -/
lemma mdLookup_mdErase_ne (m : Metadata) (k q : String) (h : q ≠ k) :
    mdLookup (mdErase m k) q = mdLookup m q := alookupS_filter_ne k q h m

/-- Lookup through mdSet: the set key wins, other keys fall through. -/
lemma mdLookup_mdSet_self (m : Metadata) (k v : String) :
    mdLookup (mdSet m k v) k = some v := by simp [mdSet, mdLookup, alookupS]

lemma mdLookup_mdSet_ne (m : Metadata) (k v q : String) (h : q ≠ k) :
    mdLookup (mdSet m k v) q = mdLookup m q := by
  simp [mdSet, mdLookup, alookupS, Ne.symm h]

/-- Lookups through the metadata transformation addContainerChain applies
before persisting: DESCRIPTION, TRACKNUMBER and ARTIST are gone, TITLE is
re-set to the terminal segment, and every other key is preserved. -/
lemma chainMd_lookups (m : Metadata) (t : String) :
    mdLookup (mdSet (mdErase (mdErase (mdErase (mdErase m M_DESCRIPTION_KEY)
        M_TITLE_KEY) M_TRACKNUMBER_KEY) M_ARTIST_KEY) M_TITLE_KEY t)
      M_DESCRIPTION_KEY = none ∧
    mdLookup (mdSet (mdErase (mdErase (mdErase (mdErase m M_DESCRIPTION_KEY)
        M_TITLE_KEY) M_TRACKNUMBER_KEY) M_ARTIST_KEY) M_TITLE_KEY t)
      M_TRACKNUMBER_KEY = none ∧
    mdLookup (mdSet (mdErase (mdErase (mdErase (mdErase m M_DESCRIPTION_KEY)
        M_TITLE_KEY) M_TRACKNUMBER_KEY) M_ARTIST_KEY) M_TITLE_KEY t)
      M_ARTIST_KEY = none ∧
    mdLookup (mdSet (mdErase (mdErase (mdErase (mdErase m M_DESCRIPTION_KEY)
        M_TITLE_KEY) M_TRACKNUMBER_KEY) M_ARTIST_KEY) M_TITLE_KEY t)
      M_TITLE_KEY = some t ∧
    (∀ q x, q ≠ M_DESCRIPTION_KEY → q ≠ M_TITLE_KEY → q ≠ M_TRACKNUMBER_KEY →
      q ≠ M_ARTIST_KEY → mdLookup m q = some x →
      mdLookup (mdSet (mdErase (mdErase (mdErase (mdErase m M_DESCRIPTION_KEY)
          M_TITLE_KEY) M_TRACKNUMBER_KEY) M_ARTIST_KEY) M_TITLE_KEY t) q = some x) := by
  refine ⟨?_, ?_, ?_, mdLookup_mdSet_self _ _ _, ?_⟩
  · rw [mdLookup_mdSet_ne _ _ _ _ (by decide), mdLookup_mdErase_ne _ _ _ (by decide),
      mdLookup_mdErase_ne _ _ _ (by decide), mdLookup_mdErase_ne _ _ _ (by decide),
      mdLookup_mdErase_self]
  · rw [mdLookup_mdSet_ne _ _ _ _ (by decide), mdLookup_mdErase_ne _ _ _ (by decide),
      mdLookup_mdErase_self]
  · rw [mdLookup_mdSet_ne _ _ _ _ (by decide), mdLookup_mdErase_self]
  · intro q x hq1 hq2 hq3 hq4 hx
    rw [mdLookup_mdSet_ne _ _ _ _ hq2, mdLookup_mdErase_ne _ _ _ hq4,
      mdLookup_mdErase_ne _ _ _ hq3, mdLookup_mdErase_ne _ _ _ hq2,
      mdLookup_mdErase_ne _ _ _ hq1, hx]

/-- Walking the chain locations with the terminal last: when no earlier
location equals the terminal and the terminal is absent, the walk creates
the terminal container carrying exactly the supplied metadata and class. -/
lemma dbChainGo_concat_terminal (cls : String) (refId : Int) (md : Metadata) :
    ∀ (pres : List String) (db : DbState) (lastId : Int) (created : List Int)
      (q : String), (∀ p ∈ pres, p ≠ q) → dbFindByPath db q = none →
      ∃ o, dbFindByPath (dbChainGo cls refId md db lastId created (pres ++ [q])).1 q
          = some o ∧ o.metadata = md ∧ o.location = q ∧ o.upnpClass = cls := by
  intro pres
  induction pres with
  | nil =>
    intro db lastId created q _ hnone
    refine ⟨{ id := db.nextId, parentId := lastId, refId := refId,
              title := chainLastSegment q, upnpClass := cls, location := q,
              mtime := 0, metadata := md, isContainer := true,
              hasResourceCH := false }, ?_, rfl, rfl, rfl⟩
    simp only [List.nil_append, dbChainGo, hnone, List.isEmpty_nil, if_true]
    simp only [dbFindByPath] at hnone ⊢
    rw [List.find?_append, hnone]
    simp
  | cons p pres ih =>
    intro db lastId created q hne hnone
    have hp : p ≠ q := hne p (by simp)
    have hne2 : ∀ r ∈ pres, r ≠ q := fun r hr => hne r (by simp [hr])
    simp only [List.cons_append, dbChainGo]
    cases hfind : dbFindByPath db p with
    | some o => exact ih db o.id created q hne2 hnone
    | none =>
      apply ih _ db.nextId _ q hne2
      simp only [dbFindByPath] at hnone ⊢
      rw [List.find?_append, hnone]
      simp [hp]

/-- add_container_chain creates the terminal container with the supplied
metadata when the terminal location is fresh and no proper prefix collides
with it. -/
lemma dbAddContainerChain_metadata (db : DbState) (chain cls : String)
    (refId : Int) (md : Metadata)
    (hni : ∀ p ∈ buildPrefixAcc "" (chainSegments chain).dropLast, p ≠ chain)
    (hnone : dbFindByPath db chain = none) :
    ∃ o, dbFindByPath (dbAddContainerChain db chain cls refId md).1 chain = some o ∧
      o.metadata = md ∧ o.location = chain ∧ o.upnpClass = cls := by
  unfold dbAddContainerChain chainLocations
  exact dbChainGo_concat_terminal cls refId md _ db CDS_ID_ROOT [] chain hni hnone

/-- A fold whose step preserves a state property preserves it over the
list. -/
lemma foldl_preserves {α : Type} (f : CMState → α → CMState) (P : CMState → Prop)
    (h : ∀ st a, P st → P (f st a)) : ∀ (l : List α) (st : CMState), P st → P (l.foldl f st)
  | [], _, hst => hst
  | a :: l, st, hst => foldl_preserves f P h l (f st a) (h st a hst)

/-- The cache-population fold of addContainerChain does not touch the
database. -/
lemma cacheFold_db (upd : List Int) (st : CMState) :
    (upd.foldl (fun st contId =>
      match dbLoadObject st.db contId with
      | some cont =>
        { st with containerMap := cacheInsert st.containerMap cont.location cont }
      | none => st) st).db = st.db := by
  have := foldl_preserves (fun st contId =>
      match dbLoadObject st.db contId with
      | some cont =>
        { st with containerMap := cacheInsert st.containerMap cont.location cont }
      | none => st) (fun s2 => s2.db = st.db) ?_ upd st rfl
  · exact this
  · intro s2 a h2
    dsimp only
    cases hload : dbLoadObject s2.db a with
    | some cont => simp [hload, h2]
    | none => simp [hload, h2]

/-- C8 (amended): the metadata addContainerChain persists for a freshly
created chain has DESCRIPTION, TRACKNUMBER and ARTIST removed, has TITLE
set to the terminal chain segment (not removed), and has ALBUMARTIST set
to the ARTIST value whenever ALBUMARTIST was absent and ARTIST present. -/
theorem addContainerChain_filters_metadata (cfg : Config) (s : CMState)
    (chain cls : String) (refId : Int) (orig : CdsObject)
    (hch : ¬ chain = "")
    (hcache : cacheLookup s.containerMap (applyMapping cfg chain) = none)
    (hdb : dbFindByPath s.db (applyMapping cfg chain) = none)
    (hni : ∀ p ∈ buildPrefixAcc "" (chainSegments (applyMapping cfg chain)).dropLast,
      p ≠ applyMapping cfg chain) :
    ∃ o, dbFindByPath ((addContainerChain cfg s chain cls refId (some orig)).2).db
        (applyMapping cfg chain) = some o ∧
      mdLookup o.metadata M_DESCRIPTION_KEY = none ∧
      mdLookup o.metadata M_TRACKNUMBER_KEY = none ∧
      mdLookup o.metadata M_ARTIST_KEY = none ∧
      mdLookup o.metadata M_TITLE_KEY = some (chainLastSegment (applyMapping cfg chain)) ∧
      (∀ a, mdLookup orig.metadata M_ALBUMARTIST_KEY = none →
        mdLookup orig.metadata M_ARTIST_KEY = some a →
        mdLookup o.metadata M_ALBUMARTIST_KEY = some a) := by
  obtain ⟨ob, hob, hmd, hloc, hcls⟩ := dbAddContainerChain_metadata s.db
    (applyMapping cfg chain) cls refId
    (mdSet (mdErase (mdErase (mdErase (mdErase
      (match mdLookup orig.metadata M_ALBUMARTIST_KEY,
             mdLookup orig.metadata M_ARTIST_KEY with
       | none, some a => mdSet orig.metadata M_ALBUMARTIST_KEY a
       | _, _ => orig.metadata) M_DESCRIPTION_KEY) M_TITLE_KEY) M_TRACKNUMBER_KEY)
      M_ARTIST_KEY) M_TITLE_KEY (chainLastSegment (applyMapping cfg chain)))
    hni hdb
  refine ⟨ob, ?_, ?_⟩
  · -- the final database is the one the chain call produced
    simp only [addContainerChain, hch, if_false, hcache]
    rcases hQ : dbAddContainerChain s.db (applyMapping cfg chain) cls refId
      (mdSet (mdErase (mdErase (mdErase (mdErase
        (match mdLookup orig.metadata M_ALBUMARTIST_KEY,
               mdLookup orig.metadata M_ARTIST_KEY with
         | none, some a => mdSet orig.metadata M_ALBUMARTIST_KEY a
         | _, _ => orig.metadata) M_DESCRIPTION_KEY) M_TITLE_KEY) M_TRACKNUMBER_KEY)
        M_ARTIST_KEY) M_TITLE_KEY (chainLastSegment (applyMapping cfg chain)))
      with ⟨db1, cid, upd⟩
    rw [hQ] at hob
    by_cases hupd : upd.isEmpty
    · simp only [hupd, if_true]
      rw [cacheFold_db]
      exact hob
    · simp only [hupd, if_false]
      simp only [assignFanArt, notifyContainerChanged, notifyContainerChangedUI]
      rw [cacheFold_db]
      exact hob
  · rw [hmd]
    have key := chainMd_lookups
      (match mdLookup orig.metadata M_ALBUMARTIST_KEY,
             mdLookup orig.metadata M_ARTIST_KEY with
       | none, some a => mdSet orig.metadata M_ALBUMARTIST_KEY a
       | _, _ => orig.metadata) (chainLastSegment (applyMapping cfg chain))
    refine ⟨key.1, key.2.1, key.2.2.1, key.2.2.2.1, ?_⟩
    intro a hAA hAR
    have hm1 : (match mdLookup orig.metadata M_ALBUMARTIST_KEY,
          mdLookup orig.metadata M_ARTIST_KEY with
       | none, some a => mdSet orig.metadata M_ALBUMARTIST_KEY a
       | _, _ => orig.metadata) = mdSet orig.metadata M_ALBUMARTIST_KEY a := by
      rw [hAA, hAR]
    exact key.2.2.2.2 M_ALBUMARTIST_KEY a (by decide) (by decide) (by decide) (by decide)
      (by rw [hm1, mdLookup_mdSet_self])

/-- A played item whose metadata carries a TITLE, for the C8 evidence. -/
def cexC8Orig : CdsObject :=
  { id := 20, parentId := 2, refId := -1, title := "x",
    upnpClass := "object.item.audioItem", location := "/m/a.mp3", mtime := 100,
    metadata := [("dc:title", "x")], isContainer := false, hasResourceCH := false }

/-- Counterexample to C8 as stated: after adding the chain /Audio with an
object whose metadata has a TITLE, the metadata persisted for the chain
still contains the TITLE key (set to the terminal segment), so TITLE is
not removed. -/
theorem addContainerChain_persists_title_key :
    ((dbFindByPath ((addContainerChain cfg0 emptyCM "/Audio" "object.container"
        (-1) (some cexC8Orig)).2).db "/Audio").bind
      (fun o => mdLookup o.metadata M_TITLE_KEY)) = some "Audio" := by decide

/-- An item with ARTIST metadata and a TITLE, for the C8 witness. -/
def wC8Orig : CdsObject :=
  { id := 21, parentId := 2, refId := -1, title := "t",
    upnpClass := "object.item.audioItem", location := "/m/b.mp3", mtime := 100,
    metadata := [("upnp:artist", "X"), ("dc:title", "t")], isContainer := false,
    hasResourceCH := false }

/-- Witness for the amended C8 at the concrete chain /Audio/X. -/
theorem addContainerChain_filters_metadata_witness :
    ∃ o, dbFindByPath ((addContainerChain cfg0 emptyCM "/Audio/X" "object.container"
        (-1) (some wC8Orig)).2).db (applyMapping cfg0 "/Audio/X") = some o ∧
      mdLookup o.metadata M_DESCRIPTION_KEY = none ∧
      mdLookup o.metadata M_TRACKNUMBER_KEY = none ∧
      mdLookup o.metadata M_ARTIST_KEY = none ∧
      mdLookup o.metadata M_TITLE_KEY = some (chainLastSegment (applyMapping cfg0 "/Audio/X")) ∧
      (∀ a, mdLookup wC8Orig.metadata M_ALBUMARTIST_KEY = none →
        mdLookup wC8Orig.metadata M_ARTIST_KEY = some a →
        mdLookup o.metadata M_ALBUMARTIST_KEY = some a) :=
  addContainerChain_filters_metadata cfg0 emptyCM "/Audio/X" "object.container" (-1)
    wC8Orig (by decide) rfl rfl (by decide)

/-- An object loaded by id is a row with that id. -/
lemma dbLoadObject_mem {db : DbState} {i : Int} {c : CdsObject}
    (h : dbLoadObject db i = some c) : c ∈ db.objects ∧ c.id = i := by
  refine ⟨List.mem_of_find?_eq_some h, ?_⟩
  have := List.find?_some h
  simpa using this

/-- An object found by path is a row at that location. -/
lemma dbFindByPath_mem {db : DbState} {p : String} {o : CdsObject}
    (h : dbFindByPath db p = some o) : o ∈ db.objects ∧ o.location = p := by
  refine ⟨List.mem_of_find?_eq_some h, ?_⟩
  have := List.find?_some h
  simpa using this

/-- The chain walk returns the id of the row found at the terminal
location afterwards. -/
lemma dbChainGo_concat_find (cls : String) (refId : Int) (md : Metadata) :
    ∀ (pres : List String) (db : DbState) (lastId : Int) (created : List Int)
      (q : String),
      dbFindIdByPath (dbChainGo cls refId md db lastId created (pres ++ [q])).1 q
          = (dbChainGo cls refId md db lastId created (pres ++ [q])).2.1 ∧
      (dbFindByPath (dbChainGo cls refId md db lastId created (pres ++ [q])).1 q).isSome := by
  intro pres
  induction pres with
  | nil =>
    intro db lastId created q
    simp only [List.nil_append, dbChainGo]
    cases hfind : dbFindByPath db q with
    | some o => simp [dbFindIdByPath, hfind]
    | none =>
      simp only [dbFindByPath] at hfind
      constructor
      · simp [dbFindIdByPath, dbFindByPath, List.find?_append, hfind]
      · simp [dbFindByPath, List.find?_append, hfind]
  | cons p pres ih =>
    intro db lastId created q
    simp only [List.cons_append, dbChainGo]
    cases hfind : dbFindByPath db p with
    | some o => exact ih db o.id created q
    | none => exact ih _ db.nextId _ q

/-- The chain walk preserves database well-formedness: created rows use
fresh ids and locations that were absent. -/
lemma dbChainGo_wf (cls : String) (refId : Int) (md : Metadata) :
    ∀ (prefs : List String) (db : DbState) (lastId : Int) (created : List Int),
      DbWf db → DbWf (dbChainGo cls refId md db lastId created prefs).1 := by
  intro prefs
  induction prefs with
  | nil => intro db lastId created h; exact h
  | cons p rest ih =>
    intro db lastId created h
    simp only [dbChainGo]
    cases hfind : dbFindByPath db p with
    | some o => exact ih db o.id created h
    | none =>
      apply ih
      obtain ⟨h1, h2, h3⟩ := h
      refine ⟨by dsimp only; omega, ?_, ?_⟩
      · intro o ho
        dsimp only at ho
        simp only [List.mem_append, List.mem_singleton] at ho
        dsimp only
        rcases ho with ho | ho
        · have := h2 o ho
          constructor <;> omega
        · subst ho
          constructor
          · dsimp only; omega
          · dsimp only; omega
      · have hnp : p ∉ db.objects.map (fun o => o.location) := by
          intro hmem
          simp only [List.mem_map] at hmem
          obtain ⟨o, ho, holoc⟩ := hmem
          have := List.find?_eq_none.mp hfind o ho
          simp [holoc] at this
        dsimp only
        simpa [List.nodup_append, h3] using hnp

/-- Whatever the cache-population fold of addContainerChain makes visible
under a key was either cached before or loaded from the database with its
location as the key. -/
lemma cacheFold_lookup (key : String) :
    ∀ (upd : List Int) (st : CMState) (c : CdsObject),
      cacheLookup ((upd.foldl (fun st contId =>
        match dbLoadObject st.db contId with
        | some cont =>
          { st with containerMap := cacheInsert st.containerMap cont.location cont }
        | none => st) st).containerMap) key = some c →
      cacheLookup st.containerMap key = some c ∨
        ∃ i ∈ upd, dbLoadObject st.db i = some c ∧ c.location = key := by
  intro upd
  induction upd with
  | nil => intro st c h; exact Or.inl h
  | cons i rest ih =>
    intro st c h
    simp only [List.foldl_cons] at h
    rcases hload : dbLoadObject st.db i with _ | cont
    · rw [hload] at h
      rcases ih st c h with h2 | ⟨j, hj, hl, hc⟩
      · exact Or.inl h2
      · exact Or.inr ⟨j, by simp [hj], hl, hc⟩
    · rw [hload] at h
      have hdbeq :
          ({ st with
              containerMap := cacheInsert st.containerMap cont.location cont } :
            CMState).db = st.db := rfl
      rcases ih _ c h with h2 | ⟨j, hj, hl, hc⟩
      · simp only [cacheLookup, cacheInsert, alookupS] at h2
        by_cases hk : cont.location = key
        · rw [if_pos hk] at h2
          obtain rfl : cont = c := by simpa using h2
          exact Or.inr ⟨i, by simp, hload, hk⟩
        · rw [if_neg hk] at h2
          exact Or.inl h2
      · rw [hdbeq] at hl
        exact Or.inr ⟨j, by simp [hj], hl, hc⟩

/-- Projection helpers: the notification emitters only touch the log. -/
lemma containerMap_notifyCC (s : CMState) (id : Int) :
    (notifyContainerChanged s id).containerMap = s.containerMap := rfl

lemma containerMap_notifyCCUI (s : CMState) (id : Int) :
    (notifyContainerChangedUI s id).containerMap = s.containerMap := rfl

/-- Core of the cache-coherence direction for a cache miss: whatever the
miss branch of addContainerChain leaves cached under the mapped chain has
the id the database call returned. -/
lemma addChain_miss_core (key cls : String) (refId : Int) (md : Metadata)
    (s : CMState) (hwf : DbWf s.db)
    (hcache : cacheLookup s.containerMap key = none) (c : CdsObject)
    (hc2 : cacheLookup ((((dbAddContainerChain s.db key cls refId md).2.2).foldl
        (fun (st : CMState) (contId : Int) =>
          match dbLoadObject st.db contId with
          | some cont =>
            { st with containerMap := cacheInsert st.containerMap cont.location cont }
          | none => st)
        { s with db := (dbAddContainerChain s.db key cls refId md).1 }).containerMap)
      key = some c) :
    c.id = (dbAddContainerChain s.db key cls refId md).2.1 := by
  have hfind : dbFindIdByPath (dbAddContainerChain s.db key cls refId md).1 key
      = (dbAddContainerChain s.db key cls refId md).2.1 ∧
      (dbFindByPath (dbAddContainerChain s.db key cls refId md).1 key).isSome :=
    dbChainGo_concat_find cls refId md (buildPrefixAcc "" (chainSegments key).dropLast)
      s.db CDS_ID_ROOT [] key
  have hwf1 : DbWf (dbAddContainerChain s.db key cls refId md).1 :=
    dbChainGo_wf cls refId md (chainLocations key) s.db CDS_ID_ROOT [] hwf
  obtain ⟨hid, hsome⟩ := hfind
  rcases cacheFold_lookup key (dbAddContainerChain s.db key cls refId md).2.2
      { s with db := (dbAddContainerChain s.db key cls refId md).1 } c hc2 with
    h2 | ⟨i, _, hload, hloc⟩
  · have h3 : cacheLookup s.containerMap key = some c := h2
    rw [hcache] at h3
    cases h3
  · obtain ⟨hcmem, -⟩ := dbLoadObject_mem
      (show dbLoadObject (dbAddContainerChain s.db key cls refId md).1 i = some c from hload)
    obtain ⟨o, ho⟩ := Option.isSome_iff_exists.mp hsome
    obtain ⟨homem, holoc⟩ := dbFindByPath_mem ho
    have hco : c = o :=
      List.inj_on_of_nodup_map hwf1.2.2 hcmem homem (by rw [hloc, holoc])
    have hoid : dbFindIdByPath (dbAddContainerChain s.db key cls refId md).1 key = o.id := by
      simp [dbFindIdByPath, ho]
    rw [hco, ← hoid, hid]

/-- C2 (amended): after any remove-object call that completes without
error the container cache is empty; and after any add-container-chain
call over a well-formed database, whenever the mapped chain is cached
afterwards, the cached container's id equals the returned id (the cache
entry can be absent when the chain was evicted but already existed in the
database, which is what the counterexample shows). -/
theorem removeObject_cache_coherence :
    (∀ (cfg : Config) (s : CMState) (adirPresent : Bool) (objectID : Int)
      (rescanResource all : Bool),
      (removeObjectImpl cfg s adirPresent objectID rescanResource all).1 = Except.ok () →
      ((removeObjectImpl cfg s adirPresent objectID rescanResource all).2).containerMap
        = []) ∧
    (∀ (cfg : Config) (s : CMState) (chain cls : String) (refId : Int)
      (orig : Option CdsObject) (r : Int) (n : Bool),
      DbWf s.db →
      (addContainerChain cfg s chain cls refId orig).1 = Except.ok (r, n) →
      ∀ c, cacheLookup ((addContainerChain cfg s chain cls refId orig).2).containerMap
          (applyMapping cfg chain) = some c → c.id = r) := by
  constructor
  · intro cfg s aP i rR all h
    rcases hE : removeObjectImpl cfg s aP i rR all with ⟨res, s2⟩
    rw [hE] at h
    simp only at h ⊢
    subst h
    simp only [removeObjectImpl] at hE
    split at hE
    · simp at hE
    · split at hE
      · simp at hE
      · split at hE
        · simp at hE
        · split at hE
          · simp at hE
          · next pR s1 _ =>
            split at hE
            · obtain ⟨-, h2⟩ := Prod.mk.injEq .. |>.mp hE
              rw [← h2]
            · obtain ⟨-, h2⟩ := Prod.mk.injEq .. |>.mp hE
              rw [← h2]
              simp [dbRemoveObject, notifyContainersChanged, notifyContainersChangedUI]
  · intro cfg s chain cls refId orig r n hwf h c hc
    by_cases hch : chain = ""
    · simp [addContainerChain, hch] at h
    · simp only [addContainerChain] at h hc
      rw [if_neg hch] at h hc
      cases hcache : cacheLookup s.containerMap (applyMapping cfg chain) with
      | some c0 =>
        rw [hcache] at h hc
        simp only at h hc
        obtain ⟨hr, -⟩ : c0.id = r ∧ false = n := by
          have := h
          simp only [Except.ok.injEq, Prod.mk.injEq] at this
          exact this
        rw [hcache] at hc
        obtain rfl : c0 = c := by simpa using hc
        exact hr.symm ▸ rfl
      | none =>
        rw [hcache] at h hc
        simp only [assignFanArt, notifyContainerChanged, notifyContainerChangedUI] at h hc
        simp only [apply_ite Prod.fst, apply_ite Prod.snd,
          apply_ite CMState.containerMap] at h hc
        simp only [ite_self] at h hc
        simp only [Except.ok.injEq, Prod.mk.injEq] at h
        obtain ⟨hr, -⟩ := h
        rw [← hr]
        exact addChain_miss_core (applyMapping cfg chain) cls refId _ s hwf hcache c hc

/-- Container /a for the C2 evidence database. -/
def cexContA : CdsObject :=
  { id := 10, parentId := 0, refId := -1, title := "a",
    upnpClass := "object.container", location := "/a", mtime := 0, metadata := [],
    isContainer := true, hasResourceCH := false }

/-- Container /a/b for the C2 evidence database. -/
def cexContAB : CdsObject :=
  { id := 11, parentId := 10, refId := -1, title := "b",
    upnpClass := "object.container", location := "/a/b", mtime := 0, metadata := [],
    isContainer := true, hasResourceCH := false }

/-- An unrelated item for the C2 evidence database. -/
def cexItemX : CdsObject :=
  { id := 20, parentId := 11, refId := -1, title := "x",
    upnpClass := "object.item", location := "/m/x.mp3", mtime := 100, metadata := [],
    isContainer := false, hasResourceCH := false }

/-- The C2 evidence database: the chain /a/b plus an unrelated item. -/
def cexC2Db : DbState := { objects := [cexContA, cexContAB, cexItemX], nextId := 30 }

/-- Manager state whose database already holds the chain /a/b and whose
cache is warm. -/
def cexC2State : CMState :=
  { emptyCM with
    db := cexC2Db
    containerMap := [("/a", cexContA), ("/a/b", cexContAB)] }

deriving instance DecidableEq for Except

/-- The state after removing the unrelated item 20 (cache cleared). -/
def cexC2AfterRemove : CMState := (removeObjectImpl cfg0 cexC2State true 20 false false).2

/-- Counterexample to C2 as stated: after a successful remove (which
empties the cache) a subsequent add-container-chain call for /a/b - still
present in the database - returns the terminal id 11, yet the cache holds
no entry for /a/b, so the returned id does not equal the id of any cached
container. -/
theorem addContainerChain_cache_can_miss :
    (removeObjectImpl cfg0 cexC2State true 20 false false).1 = Except.ok () ∧
    (addContainerChain cfg0 cexC2AfterRemove "/a/b" "object.container" (-1) none).1
      = Except.ok (11, true) ∧
    cacheLookup ((addContainerChain cfg0 cexC2AfterRemove "/a/b" "object.container"
      (-1) none).2).containerMap "/a/b" = none := by decide

/-- The container the C2 witness expects to be created and cached. -/
def wC2Obj : CdsObject :=
  { id := 2, parentId := 0, refId := -1, title := "a",
    upnpClass := "object.container", location := "/a", mtime := 0,
    metadata := [("dc:title", "a")], isContainer := true, hasResourceCH := false }

/-- Witness for the amended C2: a successful concrete remove leaves the
cache empty, and a concrete chain add that creates the terminal container
caches it under the chain with the returned id. -/
theorem removeObject_cache_coherence_witness :
    ((removeObjectImpl cfg0 cexC2State true 20 false false).2).containerMap = [] ∧
    wC2Obj.id = 2 :=
  ⟨removeObject_cache_coherence.1 cfg0 cexC2State true 20 false false (by decide),
   removeObject_cache_coherence.2 cfg0 emptyCM "/a" "object.container" (-1) none 2 true
     (by unfold DbWf; decide) (by decide) wC2Obj (by decide)⟩

/-- The tree strings the addContainerTree loop computes for a chain; they
depend only on the configuration, the starting tree string and the item
titles. -/
def treeKeys (cfg : Config) : String → List CdsObject → List String
  | _, [] => []
  | tree, item :: rest =>
    let t := applyMapping cfg (tree ++ "/" ++ item.title)
    t :: treeKeys cfg t rest

/-- Cache lookup through an insertion. -/
lemma cacheLookup_insert (m : List (String × CdsObject)) (t : String)
    (v : CdsObject) (k : String) :
    cacheLookup (cacheInsert m t v) k = if t = k then some v else cacheLookup m k := by
  simp [cacheLookup, cacheInsert, alookupS]

/-- The terminal id add_container_chain returns is always loadable. -/
lemma dbChain_load_terminal (db : DbState) (ch cls : String) (refId : Int)
    (md : Metadata) :
    (dbLoadObject (dbAddContainerChain db ch cls refId md).1
      (dbAddContainerChain db ch cls refId md).2.1).isSome := by
  have h : dbFindIdByPath (dbAddContainerChain db ch cls refId md).1 ch
      = (dbAddContainerChain db ch cls refId md).2.1 ∧
      (dbFindByPath (dbAddContainerChain db ch cls refId md).1 ch).isSome :=
    dbChainGo_concat_find cls refId md (buildPrefixAcc "" (chainSegments ch).dropLast)
      db CDS_ID_ROOT [] ch
  obtain ⟨hid, hsome⟩ := h
  obtain ⟨o, ho⟩ := Option.isSome_iff_exists.mp hsome
  obtain ⟨hmem, -⟩ := dbFindByPath_mem ho
  have hoid : o.id = (dbAddContainerChain db ch cls refId md).2.1 := by
    rw [← hid]; simp [dbFindIdByPath, ho]
  exact List.find?_isSome.mpr ⟨o, hmem, by simp [hoid]⟩

/-- The chain loop never drops cache entries. -/
lemma treeGo_cache_mono (cfg : Config) :
    ∀ (items : List CdsObject) (s : CMState) (tree : String) (r0 : Int)
      (c0 : List Int) (n0 : Bool) (res : TreeRes) (s2 : CMState),
      addContainerTreeGo cfg s tree r0 c0 n0 items = (res, s2) →
      ∀ k, (cacheLookup s.containerMap k).isSome →
        (cacheLookup s2.containerMap k).isSome := by
  intro items
  induction items with
  | nil =>
    intro s tree r0 c0 n0 res s2 hE k hk
    simp only [addContainerTreeGo] at hE
    obtain ⟨-, rfl⟩ := Prod.mk.injEq .. |>.mp hE
    exact hk
  | cons it rest ih =>
    intro s tree r0 c0 n0 res s2 hE k hk
    simp only [addContainerTreeGo, assignFanArt] at hE
    by_cases hti : it.title = ""
    · rw [if_pos hti] at hE
      obtain ⟨-, rfl⟩ := Prod.mk.injEq .. |>.mp hE
      exact hk
    · rw [if_neg hti] at hE
      cases hcl : cacheLookup s.containerMap
          (applyMapping cfg (tree ++ "/" ++ it.title)) with
      | some c =>
        rw [hcl] at hE
        exact ih _ _ _ _ _ _ _ hE k hk
      | none =>
        rw [hcl] at hE
        cases hload : dbLoadObject
            (dbAddContainerChain s.db (applyMapping cfg (tree ++ "/" ++ it.title))
              it.upnpClass INVALID_OBJECT_ID (mdSet it.metadata M_TITLE_KEY it.title)).1
            (dbAddContainerChain s.db (applyMapping cfg (tree ++ "/" ++ it.title))
              it.upnpClass INVALID_OBJECT_ID (mdSet it.metadata M_TITLE_KEY it.title)).2.1
            with
        | some cont =>
          rw [hload] at hE
          refine ih _ _ _ _ _ _ _ hE k ?_
          rw [cacheLookup_insert]
          by_cases hk2 : applyMapping cfg (tree ++ "/" ++ it.title) = k
          · simp [hk2]
          · simpa [hk2] using hk
        | none =>
          rw [hload] at hE
          exact ih _ _ _ _ _ _ _ hE k hk

/-- The chain loop never resets the isNew flag. -/
lemma treeGo_isNew_mono (cfg : Config) :
    ∀ (items : List CdsObject) (s : CMState) (tree : String) (r0 : Int)
      (c0 : List Int) (r : Int) (n : Bool) (c : List Int) (s2 : CMState),
      addContainerTreeGo cfg s tree r0 c0 true items = (TreeRes.done r n c, s2) →
      n = true := by
  intro items
  induction items with
  | nil =>
    intro s tree r0 c0 r n c s2 hE
    simp only [addContainerTreeGo] at hE
    obtain ⟨h1, -⟩ := Prod.mk.injEq .. |>.mp hE
    obtain ⟨-, h2, -⟩ := TreeRes.done.injEq .. |>.mp h1
    exact h2.symm
  | cons it rest ih =>
    intro s tree r0 c0 r n c s2 hE
    simp only [addContainerTreeGo, assignFanArt] at hE
    by_cases hti : it.title = ""
    · rw [if_pos hti] at hE
      obtain ⟨h1, -⟩ := Prod.mk.injEq .. |>.mp hE
      cases h1
    · rw [if_neg hti] at hE
      cases hcl : cacheLookup s.containerMap
          (applyMapping cfg (tree ++ "/" ++ it.title)) with
      | some cc =>
        rw [hcl] at hE
        exact ih _ _ _ _ _ _ _ _ hE
      | none =>
        rw [hcl] at hE
        cases hload : dbLoadObject
            (dbAddContainerChain s.db (applyMapping cfg (tree ++ "/" ++ it.title))
              it.upnpClass INVALID_OBJECT_ID (mdSet it.metadata M_TITLE_KEY it.title)).1
            (dbAddContainerChain s.db (applyMapping cfg (tree ++ "/" ++ it.title))
              it.upnpClass INVALID_OBJECT_ID (mdSet it.metadata M_TITLE_KEY it.title)).2.1
            with
        | some cont => rw [hload] at hE; exact ih _ _ _ _ _ _ _ _ hE
        | none => rw [hload] at hE; exact ih _ _ _ _ _ _ _ _ hE

/-- With nonempty titles the chain loop completes normally, keeping a set
isNew flag set. -/
lemma treeGo_done (cfg : Config) :
    ∀ (items : List CdsObject), (∀ it ∈ items, it.title ≠ "") →
      ∀ (s : CMState) (tree : String) (r0 : Int) (c0 : List Int) (n0 : Bool),
      ∃ r n c s2,
        addContainerTreeGo cfg s tree r0 c0 n0 items = (TreeRes.done r n c, s2) := by
  intro items
  induction items with
  | nil => intro _ s tree r0 c0 n0; exact ⟨r0, n0, c0, s, by simp [addContainerTreeGo]⟩
  | cons it rest ih =>
    intro ht s tree r0 c0 n0
    have hti : ¬ it.title = "" := ht it (by simp)
    have ht2 : ∀ x ∈ rest, x.title ≠ "" := fun x hx => ht x (by simp [hx])
    simp only [addContainerTreeGo, assignFanArt, if_neg hti]
    cases hcl : cacheLookup s.containerMap
        (applyMapping cfg (tree ++ "/" ++ it.title)) with
    | some cc => exact ih ht2 _ _ _ _ _
    | none =>
      cases hload : dbLoadObject
          (dbAddContainerChain s.db (applyMapping cfg (tree ++ "/" ++ it.title))
            it.upnpClass INVALID_OBJECT_ID (mdSet it.metadata M_TITLE_KEY it.title)).1
          (dbAddContainerChain s.db (applyMapping cfg (tree ++ "/" ++ it.title))
            it.upnpClass INVALID_OBJECT_ID (mdSet it.metadata M_TITLE_KEY it.title)).2.1
          with
      | some cont => exact ih ht2 _ _ _ _ _
      | none => exact ih ht2 _ _ _ _ _

/-- After a completed chain loop every computed tree key is cached. -/
lemma treeGo_populates (cfg : Config) :
    ∀ (items : List CdsObject) (s : CMState) (tree : String) (r0 : Int)
      (c0 : List Int) (n0 : Bool) (r : Int) (n : Bool) (c : List Int) (s2 : CMState),
      addContainerTreeGo cfg s tree r0 c0 n0 items = (TreeRes.done r n c, s2) →
      ∀ k ∈ treeKeys cfg tree items, (cacheLookup s2.containerMap k).isSome := by
  intro items
  induction items with
  | nil =>
    intro s tree r0 c0 n0 r n c s2 _ k hk
    simp [treeKeys] at hk
  | cons it rest ih =>
    intro s tree r0 c0 n0 r n c s2 hE k hk
    simp only [treeKeys, List.mem_cons] at hk
    simp only [addContainerTreeGo, assignFanArt] at hE
    by_cases hti : it.title = ""
    · rw [if_pos hti] at hE
      obtain ⟨h1, -⟩ := Prod.mk.injEq .. |>.mp hE
      cases h1
    · rw [if_neg hti] at hE
      cases hcl : cacheLookup s.containerMap
          (applyMapping cfg (tree ++ "/" ++ it.title)) with
      | some cc =>
        rw [hcl] at hE
        rcases hk with hk | hk
        · subst hk
          exact treeGo_cache_mono cfg _ _ _ _ _ _ _ _ hE _ (by simp [hcl])
        · exact ih _ _ _ _ _ _ _ _ _ hE k hk
      | none =>
        rw [hcl] at hE
        cases hload : dbLoadObject
            (dbAddContainerChain s.db (applyMapping cfg (tree ++ "/" ++ it.title))
              it.upnpClass INVALID_OBJECT_ID (mdSet it.metadata M_TITLE_KEY it.title)).1
            (dbAddContainerChain s.db (applyMapping cfg (tree ++ "/" ++ it.title))
              it.upnpClass INVALID_OBJECT_ID (mdSet it.metadata M_TITLE_KEY it.title)).2.1
            with
        | some cont =>
          rw [hload] at hE
          rcases hk with hk | hk
          · subst hk
            refine treeGo_cache_mono cfg _ _ _ _ _ _ _ _ hE _ ?_
            rw [cacheLookup_insert]
            simp
          · exact ih _ _ _ _ _ _ _ _ _ hE k hk
        | none =>
          have := dbChain_load_terminal s.db (applyMapping cfg (tree ++ "/" ++ it.title))
            it.upnpClass INVALID_OBJECT_ID (mdSet it.metadata M_TITLE_KEY it.title)
          rw [hload] at this
          simp at this

/-- getLast? skips the head for a nonempty tail. -/
lemma getLast?_cons_ne {α : Type} (a : α) (l : List α) (h : l ≠ []) :
    (a :: l).getLast? = l.getLast? := by
  cases l with
  | nil => exact absurd rfl h
  | cons b t => exact List.getLast?_cons_cons

/-- The tree keys of a nonempty chain form a nonempty list. -/
lemma treeKeys_ne_nil (cfg : Config) (tree : String) (items : List CdsObject)
    (h : items ≠ []) : treeKeys cfg tree items ≠ [] := by
  cases items with
  | nil => exact absurd rfl h
  | cons it rest => simp [treeKeys]

/-- After a completed chain loop over a nonempty chain, the last tree key
is cached with a container carrying the returned id. -/
lemma treeGo_lastCached (cfg : Config) :
    ∀ (items : List CdsObject) (s : CMState) (tree : String) (r0 : Int)
      (c0 : List Int) (n0 : Bool) (r : Int) (n : Bool) (c : List Int) (s2 : CMState),
      addContainerTreeGo cfg s tree r0 c0 n0 items = (TreeRes.done r n c, s2) →
      items ≠ [] →
      ∀ lk, (treeKeys cfg tree items).getLast? = some lk →
      ∃ v, cacheLookup s2.containerMap lk = some v ∧ v.id = r := by
  intro items
  induction items with
  | nil => intro s tree r0 c0 n0 r n c s2 _ hne; exact absurd rfl hne
  | cons it rest ih =>
    intro s tree r0 c0 n0 r n c s2 hE _ lk hlk
    simp only [addContainerTreeGo, assignFanArt] at hE
    by_cases hti : it.title = ""
    · rw [if_pos hti] at hE
      obtain ⟨h1, -⟩ := Prod.mk.injEq .. |>.mp hE
      cases h1
    · rw [if_neg hti] at hE
      by_cases hrest : rest = []
      · subst hrest
        have hlk2 : lk = applyMapping cfg (tree ++ "/" ++ it.title) := by
          simp [treeKeys] at hlk
          exact hlk.symm
        subst hlk2
        cases hcl : cacheLookup s.containerMap
            (applyMapping cfg (tree ++ "/" ++ it.title)) with
        | some cc =>
          rw [hcl] at hE
          simp only [addContainerTreeGo] at hE
          obtain ⟨h1, h2⟩ := Prod.mk.injEq .. |>.mp hE
          obtain ⟨hr, -, -⟩ := TreeRes.done.injEq .. |>.mp h1
          rw [← h2, ← hr]
          exact ⟨cc, hcl, rfl⟩
        | none =>
          rw [hcl] at hE
          cases hload : dbLoadObject
              (dbAddContainerChain s.db (applyMapping cfg (tree ++ "/" ++ it.title))
                it.upnpClass INVALID_OBJECT_ID (mdSet it.metadata M_TITLE_KEY it.title)).1
              (dbAddContainerChain s.db (applyMapping cfg (tree ++ "/" ++ it.title))
                it.upnpClass INVALID_OBJECT_ID (mdSet it.metadata M_TITLE_KEY it.title)).2.1
              with
          | some cont =>
            rw [hload] at hE
            simp only [addContainerTreeGo] at hE
            obtain ⟨h1, h2⟩ := Prod.mk.injEq .. |>.mp hE
            obtain ⟨hr, -, -⟩ := TreeRes.done.injEq .. |>.mp h1
            obtain ⟨-, hcid⟩ := dbLoadObject_mem hload
            refine ⟨cont, ?_, by rw [hcid, hr]⟩
            rw [← h2, cacheLookup_insert]
            simp
          | none =>
            have := dbChain_load_terminal s.db
              (applyMapping cfg (tree ++ "/" ++ it.title))
              it.upnpClass INVALID_OBJECT_ID (mdSet it.metadata M_TITLE_KEY it.title)
            rw [hload] at this
            simp at this
      · have hlk2 : (treeKeys cfg (applyMapping cfg (tree ++ "/" ++ it.title)) rest).getLast?
            = some lk := by
          rw [← getLast?_cons_ne _ _ (treeKeys_ne_nil cfg _ rest hrest)]
          simpa [treeKeys] using hlk
        cases hcl : cacheLookup s.containerMap
            (applyMapping cfg (tree ++ "/" ++ it.title)) with
        | some cc =>
          rw [hcl] at hE
          exact ih _ _ _ _ _ _ _ _ _ hE hrest lk hlk2
        | none =>
          rw [hcl] at hE
          cases hload : dbLoadObject
              (dbAddContainerChain s.db (applyMapping cfg (tree ++ "/" ++ it.title))
                it.upnpClass INVALID_OBJECT_ID (mdSet it.metadata M_TITLE_KEY it.title)).1
              (dbAddContainerChain s.db (applyMapping cfg (tree ++ "/" ++ it.title))
                it.upnpClass INVALID_OBJECT_ID (mdSet it.metadata M_TITLE_KEY it.title)).2.1
              with
          | some cont =>
            rw [hload] at hE
            exact ih _ _ _ _ _ _ _ _ _ hE hrest lk hlk2
          | none =>
            rw [hload] at hE
            exact ih _ _ _ _ _ _ _ _ _ hE hrest lk hlk2

/-- When every tree key is already cached, the chain loop is a pure
read: it returns the cached id of the last key, leaves the state, the
isNew flag and the created list untouched. -/
lemma treeGo_allHit (cfg : Config) :
    ∀ (items : List CdsObject) (s : CMState) (tree : String) (r0 : Int)
      (c0 : List Int) (n0 : Bool),
      (∀ it ∈ items, it.title ≠ "") →
      (∀ k ∈ treeKeys cfg tree items, (cacheLookup s.containerMap k).isSome) →
      ∃ r, addContainerTreeGo cfg s tree r0 c0 n0 items = (TreeRes.done r n0 c0, s) ∧
        (∀ lk v, (treeKeys cfg tree items).getLast? = some lk →
          cacheLookup s.containerMap lk = some v → r = v.id) := by
  intro items
  induction items with
  | nil =>
    intro s tree r0 c0 n0 _ _
    refine ⟨r0, by simp [addContainerTreeGo], ?_⟩
    intro lk v hlk
    simp [treeKeys] at hlk
  | cons it rest ih =>
    intro s tree r0 c0 n0 ht hall
    have hti : ¬ it.title = "" := ht it (by simp)
    have ht2 : ∀ x ∈ rest, x.title ≠ "" := fun x hx => ht x (by simp [hx])
    have hhead : (cacheLookup s.containerMap
        (applyMapping cfg (tree ++ "/" ++ it.title))).isSome :=
      hall _ (by simp [treeKeys])
    obtain ⟨cc, hcc⟩ := Option.isSome_iff_exists.mp hhead
    have hall2 : ∀ k ∈ treeKeys cfg (applyMapping cfg (tree ++ "/" ++ it.title)) rest,
        (cacheLookup s.containerMap k).isSome := by
      intro k hk
      exact hall k (by simp [treeKeys, hk])
    obtain ⟨r, hE, hlast⟩ := ih s (applyMapping cfg (tree ++ "/" ++ it.title)) cc.id c0 n0
      ht2 hall2
    refine ⟨r, ?_, ?_⟩
    · simp only [addContainerTreeGo, assignFanArt, if_neg hti, hcc]
      exact hE
    · intro lk v hlk hv
      by_cases hrest : rest = []
      · subst hrest
        simp only [treeKeys] at hlk
        simp only [List.getLast?_singleton, Option.some.injEq] at hlk
        subst hlk
        rw [hcc] at hv
        obtain rfl : cc = v := by simpa using hv
        simp only [treeKeys, addContainerTreeGo] at hE
        obtain ⟨h1, -⟩ := Prod.mk.injEq .. |>.mp hE
        obtain ⟨hr, -, -⟩ := TreeRes.done.injEq .. |>.mp h1
        exact hr.symm
      · apply hlast lk v ?_ hv
        rw [← getLast?_cons_ne _ _ (treeKeys_ne_nil cfg _ rest hrest)]
        simpa [treeKeys] using hlk

/-- C3: calling addContainerTree twice on a chain with nonempty titles,
starting from a state where none of its tree keys are cached (a first
add), returns the same terminal id both times; isNew is true on the first
call and false on the second. -/
theorem addContainerTree_idempotent (cfg : Config) (s : CMState)
    (chain : List CdsObject) (hne : chain ≠ [])
    (ht : ∀ it ∈ chain, it.title ≠ "")
    (hfresh : ∀ k ∈ treeKeys cfg "" chain, cacheLookup s.containerMap k = none) :
    (addContainerTree cfg s chain).1.1 =
      (addContainerTree cfg (addContainerTree cfg s chain).2 chain).1.1 ∧
    (addContainerTree cfg s chain).1.2 = true ∧
    (addContainerTree cfg (addContainerTree cfg s chain).2 chain).1.2 = false := by
  obtain ⟨r1, n1, c1, s1, hE1⟩ :=
    treeGo_done cfg chain ht s "" INVALID_OBJECT_ID [] false
  have hn1 : n1 = true := by
    cases chain with
    | nil => exact absurd rfl hne
    | cons it rest =>
      have hti : ¬ it.title = "" := ht it (by simp)
      have hk1 : cacheLookup s.containerMap
          (applyMapping cfg ("" ++ "/" ++ it.title)) = none :=
        hfresh _ (by simp [treeKeys])
      simp only [addContainerTreeGo, assignFanArt, if_neg hti, hk1] at hE1
      cases hload : dbLoadObject
          (dbAddContainerChain s.db (applyMapping cfg ("" ++ "/" ++ it.title))
            it.upnpClass INVALID_OBJECT_ID (mdSet it.metadata M_TITLE_KEY it.title)).1
          (dbAddContainerChain s.db (applyMapping cfg ("" ++ "/" ++ it.title))
            it.upnpClass INVALID_OBJECT_ID (mdSet it.metadata M_TITLE_KEY it.title)).2.1
          with
      | some cont =>
        rw [hload] at hE1
        exact treeGo_isNew_mono cfg rest _ _ _ _ _ _ _ _ hE1
      | none =>
        rw [hload] at hE1
        exact treeGo_isNew_mono cfg rest _ _ _ _ _ _ _ _ hE1
  have hw1a : (addContainerTree cfg s chain).1 = (r1, n1) := by
    simp only [addContainerTree, hE1]
    by_cases hc : c1.isEmpty <;> simp [hc]
  have hw1b : ((addContainerTree cfg s chain).2).containerMap = s1.containerMap := by
    simp only [addContainerTree, hE1]
    by_cases hc : c1.isEmpty <;>
      simp [hc, notifyContainerChanged, notifyContainerChangedUI]
  have hlkex : ((treeKeys cfg "" chain).getLast?).isSome := by
    simp [List.getLast?_isSome, treeKeys_ne_nil cfg "" chain hne]
  obtain ⟨lk, hlk⟩ := Option.isSome_iff_exists.mp hlkex
  obtain ⟨v, hv, hvid⟩ :=
    treeGo_lastCached cfg chain s "" _ _ _ _ _ _ _ hE1 hne lk hlk
  set t2 := (addContainerTree cfg s chain).2 with ht2
  have hall2 : ∀ k ∈ treeKeys cfg "" chain,
      (cacheLookup t2.containerMap k).isSome := by
    intro k hk
    rw [hw1b]
    exact treeGo_populates cfg chain s "" _ _ _ _ _ _ _ hE1 k hk
  obtain ⟨r2, hE2, hlast2⟩ := treeGo_allHit cfg chain t2
    "" INVALID_OBJECT_ID [] false ht hall2
  have hw2a : (addContainerTree cfg t2 chain).1 = (r2, false) := by
    simp only [addContainerTree, hE2]
    simp
  have hr12 : r2 = r1 := by
    have hv2 : cacheLookup t2.containerMap lk = some v := by
      rw [hw1b]; exact hv
    rw [hlast2 lk v hlk hv2, hvid]
  refine ⟨?_, ?_, ?_⟩
  · rw [hw1a, hw2a]
    simpa using hr12.symm
  · rw [hw1a]
    simpa using hn1
  · rw [hw2a]

/-- First chain item for the C3 witness. -/
def wChainA : CdsObject :=
  { id := -1, parentId := -1, refId := -1, title := "Audio",
    upnpClass := "object.container", location := "", mtime := 0, metadata := [],
    isContainer := true, hasResourceCH := false }

/-- Second chain item for the C3 witness. -/
def wChainB : CdsObject :=
  { id := -1, parentId := -1, refId := -1, title := "Artists",
    upnpClass := "object.container", location := "", mtime := 0, metadata := [],
    isContainer := true, hasResourceCH := false }

/-- Witness for C3 at the concrete chain Audio/Artists from the empty
state. -/
theorem addContainerTree_idempotent_witness :
    (addContainerTree cfg0 emptyCM [wChainA, wChainB]).1.1 =
      (addContainerTree cfg0 (addContainerTree cfg0 emptyCM [wChainA, wChainB]).2
        [wChainA, wChainB]).1.1 ∧
    (addContainerTree cfg0 emptyCM [wChainA, wChainB]).1.2 = true ∧
    (addContainerTree cfg0 (addContainerTree cfg0 emptyCM [wChainA, wChainB]).2
      [wChainA, wChainB]).1.2 = false :=
  addContainerTree_idempotent cfg0 emptyCM [wChainA, wChainB] (by simp)
    (by decide) (fun _ _ => rfl)

/-- A non-recursive, non-resource-rescan synchronous add never throws. -/
lemma addFileImpl_norec_ok (cfg : Config) (fuel : Nat) (s : CMState) (e : DirEntry)
    (rootpath : String) (st : AutoScanSetting) (h1 : st.recursive = false)
    (h2 : st.rescanResource = false) :
    ∃ v s2, addFileImpl cfg fuel s e rootpath st = (Except.ok v, s2) := by
  simp only [addFileImpl, h1, h2, Bool.false_and, Bool.false_eq_true, if_false]
  split
  · exact ⟨_, _, rfl⟩
  · split
    · exact ⟨_, _, rfl⟩
    · rcases createSingleItem cfg s e rootpath st.followSymlinks true false false with
        ⟨obj?, s1⟩
      cases obj? with
      | none => exact ⟨_, _, rfl⟩
      | some obj => exact ⟨_, _, rfl⟩

/-- Removing a regular (non-sentinel) id without resource rescan
succeeds. -/
lemma removeObjectImpl_gt1_ok (cfg : Config) (s : CMState) (aP : Bool) (i : Int)
    (all : Bool) (h : 1 < i) :
    ∃ s2, removeObjectImpl cfg s aP i false all = (Except.ok (), s2) := by
  simp only [removeObjectImpl]
  rw [if_neg (show ¬ i = CDS_ID_ROOT by simp [CDS_ID_ROOT]; omega),
    if_neg (show ¬ i = CDS_ID_FS_ROOT by simp [CDS_ID_FS_ROOT]; omega),
    if_neg (show ¬ IS_FORBIDDEN_CDS_ID i = true by
      simp [IS_FORBIDDEN_CDS_ID, CDS_ID_FS_ROOT]; omega)]
  exact ⟨_, rfl⟩

/-- Walk parameters for the rescan file-reconciliation evidence: a
recursive scan of "/m" driven by a live task. -/
def wP4 : WalkParams :=
  { adirRecursive := true, adirHidden := false, location := "/m", rootpath := "/m",
    parent := none, taskPresent := true, taskId := 7, taskCancellable := true,
    finalShutdown := false, finalTaskValid := true, fuel := 0 }

/-- A catalogued item at "/m/a.mp3" with database mtime 50. -/
def wObj4 : CdsObject :=
  { id := 5, parentId := 2, refId := INVALID_OBJECT_ID, title := "a.mp3",
    upnpClass := "object.item.audioItem", location := "/m/a.mp3", mtime := 50,
    metadata := [], isContainer := false, hasResourceCH := false }

/-- Loop state holding that item as the single known child, with the
running maximum seeded at 50. -/
def wLs4 : RescanLoopState :=
  { cm := { emptyCM with
      db := { objects := [wObj4], nextId := 6 } },
    newMax := 50, known := some [5] }

/-- The directory entry the walk meets for that file, now carrying
mtime 100 and benign concurrency observations. -/
def wE4 : DirEntry :=
  { path := "/m/a.mp3", name := "a.mp3", kind := FsKind.file, isSymlink := false,
    isRelative := false, mtime := 100, obsShutdown := false, obsTaskValid := true,
    obsScanIdValid := true, obsScanIdValidLocked := true }

/-- C4: during a rescan walk, a regular-file child already present in the
catalog (a positive id found by path) is removed and re-added exactly
when its mtime strictly exceeds the memoized previous last-modified time
- an equal mtime leaves it untouched - and the running maximum
last_modified_new_max never decreases at any step that continues or
returns early (content_manager.cc lines 713-744). -/
theorem rescan_readd_iff_newer :
    (∀ (cfg : Config) (P : WalkParams) (prev : Int) (ls : RescanLoopState)
      (e : DirEntry) (i : Int),
      (nameStartsWithDot e.name && !(walkSetting cfg P).hidden) = false →
      (e.obsShutdown || (P.taskPresent && !e.obsTaskValid)) = false →
      e.obsScanIdValid = true →
      (!(walkSetting cfg P).followSymlinks && e.isSymlink) = false →
      e.kind = FsKind.file →
      dbFindIdByPath ls.cm.db e.path = i →
      1 < i →
      ((∃ ls1, rescanStep cfg P prev ls e =
          StepRes.cont ls1 [WalkAction.removedObject i, WalkAction.addedFile e.path]) ↔
        prev < e.mtime)) ∧
    (∀ (cfg : Config) (P : WalkParams) (prev : Int) (ls : RescanLoopState)
      (e : DirEntry) (ls1 : RescanLoopState) (acts : List WalkAction),
      rescanStep cfg P prev ls e = StepRes.cont ls1 acts → ls.newMax ≤ ls1.newMax) ∧
    (∀ (cfg : Config) (P : WalkParams) (prev : Int) (ls : RescanLoopState)
      (e : DirEntry) (ls1 : RescanLoopState),
      rescanStep cfg P prev ls e = StepRes.ret ls1 → ls.newMax ≤ ls1.newMax) := by
  refine ⟨?_, ?_, ?_⟩
  · intro cfg P prev ls e i hhid hbrk hscan hsym hkind hfind hi
    have h0 : (0:Int) < i := by omega
    simp only [rescanStep, hhid, hbrk, hscan, hsym, hkind, hfind, h0, Bool.not_true,
      Bool.false_eq_true, if_false, if_true]
    by_cases hmt : prev < e.mtime
    · obtain ⟨sA, hrm⟩ := removeObjectImpl_gt1_ok cfg ls.cm true i false hi
      obtain ⟨v, sB, hadd⟩ := addFileImpl_norec_ok cfg P.fuel sA e P.rootpath
        { walkSetting cfg P with recursive := false, rescanResource := false } rfl rfl
      simp only [hmt, if_true, addFileInternal, Bool.false_eq_true, if_false, hrm, hadd]
      exact iff_of_true ⟨_, rfl⟩ trivial
    · simp only [hmt, if_false]
      refine iff_of_false ?_ not_false
      rintro ⟨ls1, h⟩
      simp at h
  · intro cfg P prev ls e ls1 acts h
    simp only [rescanStep] at h
    repeat' split at h
    all_goals cases h
    all_goals
      first
      | omega
      | (dsimp only; omega)
  · intro cfg P prev ls e ls1 h
    simp only [rescanStep] at h
    repeat' split at h
    all_goals cases h
    all_goals
      first
      | omega
      | (dsimp only; omega)

/-- Witness for the file-reconciliation theorem: the concrete walk over
"/m" re-adds the known file whose entry mtime 100 exceeds the previous
maximum 50. -/
theorem rescan_readd_iff_newer_witness :
    ∃ ls1, rescanStep cfg0 wP4 50 wLs4 wE4 =
      StepRes.cont ls1 [WalkAction.removedObject 5, WalkAction.addedFile "/m/a.mp3"] :=
  (rescan_readd_iff_newer.1 cfg0 wP4 50 wLs4 wE4 5 (by decide) (by decide) (by decide)
    (by decide) (by decide) (by decide) (by decide)).mpr (by decide)

/-- A file entry whose line-692 scan-id observation is INVALID. -/
def wE6a : DirEntry :=
  { path := "/m/b.mp3", name := "b.mp3", kind := FsKind.file, isSymlink := false,
    isRelative := false, mtime := 70, obsShutdown := false, obsTaskValid := true,
    obsScanIdValid := false, obsScanIdValidLocked := false }

/-- An uncatalogued directory entry whose locked line-763 re-check of the
scan id observes INVALID. -/
def wE6b : DirEntry :=
  { path := "/m/new", name := "new", kind := FsKind.dir, isSymlink := false,
    isRelative := false, mtime := 80, obsShutdown := false, obsTaskValid := true,
    obsScanIdValid := true, obsScanIdValidLocked := false }

/-- C6: when a rescan walk observes the autoscan directory's scan id as
INVALID - either at the per-entry check of content_manager.cc lines
687-696 or at the locked re-check of lines 760-767 before enqueuing an
add for an unknown directory - the walk calls finishScan with the partial
running maximum and returns, skipping the remaining entries and the
post-loop stale removal: the manager state is exactly the finishScan
result and no further walk action is recorded. -/
theorem rescan_invalid_scanid_finishes :
    (∀ (cfg : Config) (P : WalkParams) (prev : Int) (ls : RescanLoopState)
      (e : DirEntry) (rest : List DirEntry),
      e.obsScanIdValid = false →
      (nameStartsWithDot e.name && !(walkSetting cfg P).hidden) = false →
      (e.obsShutdown || (P.taskPresent && !e.obsTaskValid)) = false →
      rescanGo cfg P prev ls (e :: rest) =
        (Except.ok (), finishScan ls.cm true P.location P.parent ls.newMax, [])) ∧
    (∀ (cfg : Config) (P : WalkParams) (prev : Int) (ls : RescanLoopState)
      (e : DirEntry) (rest : List DirEntry),
      e.obsScanIdValid = true →
      e.obsScanIdValidLocked = false →
      (nameStartsWithDot e.name && !(walkSetting cfg P).hidden) = false →
      (e.obsShutdown || (P.taskPresent && !e.obsTaskValid)) = false →
      (!(walkSetting cfg P).followSymlinks && e.isSymlink) = false →
      e.kind = FsKind.dir →
      (walkSetting cfg P).recursive = true →
      dbFindIdByPath ls.cm.db e.path ≤ 0 →
      rescanGo cfg P prev ls (e :: rest) =
        (Except.ok (),
          finishScan ls.cm true P.location P.parent
            (if ls.newMax < e.mtime then e.mtime else ls.newMax), [])) := by
  constructor
  · intro cfg P prev ls e rest hscan hhid hbrk
    have hstep : rescanStep cfg P prev ls e = StepRes.ret ls := by
      simp only [rescanStep, hhid, hbrk, hscan, Bool.not_false, Bool.false_eq_true,
        if_false, if_true]
    simp only [rescanGo, hstep]
  · intro cfg P prev ls e rest hscan hlock hhid hbrk hsym hkind hrec hfind
    have hno : ¬ (0 < dbFindIdByPath ls.cm.db e.path) := by omega
    have hstep : rescanStep cfg P prev ls e =
        StepRes.ret { ls with newMax := if ls.newMax < e.mtime then e.mtime else ls.newMax } := by
      simp only [rescanStep, hhid, hbrk, hscan, hlock, hsym, hkind, hrec, hno,
        Bool.not_true, Bool.not_false, Bool.false_eq_true, if_false, if_true]
    simp only [rescanGo, hstep]

/-- Witness for the invalid-scan-id theorem: both early-return sites on
the concrete "/m" walk state, one file entry with an INVALID line-692
observation and one unknown directory with an INVALID locked line-763
observation. -/
theorem rescan_invalid_scanid_finishes_witness :
    rescanGo cfg0 wP4 50 wLs4 [wE6a] =
      (Except.ok (), finishScan wLs4.cm true "/m" none wLs4.newMax, []) ∧
    rescanGo cfg0 wP4 50 wLs4 [wE6b] =
      (Except.ok (),
        finishScan wLs4.cm true "/m" none
          (if wLs4.newMax < wE6b.mtime then wE6b.mtime else wLs4.newMax), []) :=
  ⟨rescan_invalid_scanid_finishes.1 cfg0 wP4 50 wLs4 wE6a [] (by decide) (by decide)
      (by decide),
   rescan_invalid_scanid_finishes.2 cfg0 wP4 50 wLs4 wE6b [] (by decide) (by decide)
      (by decide) (by decide) (by decide) (by decide) (by decide) (by decide)⟩

/-- finishScan with an attached autoscan directory records the clamped
maximum at the head of the current-lmt memo. -/
lemma finishScan_lookup (s : CMState) (location : String)
    (parent : Option CdsObject) (lmt : Int) :
    alookupS (finishScan s true location parent lmt).adirCurrentLMT location =
      some (if 0 < lmt then lmt else 1) := by
  cases parent with
  | none => simp [finishScan, setCurrentLMT, alookupS]
  | some p =>
    by_cases h : 0 < lmt
    · simp [finishScan, setCurrentLMT, alookupS, h]
    · simp [finishScan, setCurrentLMT, alookupS, h]

/-- rescanFinish succeeds and leaves the scanned location's current-lmt
memo at the clamped running maximum (the stale-removal tail only touches
the database and the notification log). -/
lemma rescanFinish_lmt (cfg : Config) (P : WalkParams) (ls : RescanLoopState) :
    (rescanFinish cfg P ls).1 = Except.ok () ∧
    alookupS (rescanFinish cfg P ls).2.1.adirCurrentLMT P.location =
      some (if 0 < ls.newMax then ls.newMax else 1) := by
  simp only [rescanFinish]
  split
  · exact ⟨rfl, finishScan_lookup _ _ _ _⟩
  · split
    · split
      · refine ⟨rfl, ?_⟩
        dsimp only [notifyContainersChanged, notifyContainersChangedUI]
        exact finishScan_lookup _ _ _ _
      · exact ⟨rfl, finishScan_lookup _ _ _ _⟩
    · exact ⟨rfl, finishScan_lookup _ _ _ _⟩

/-- A walk step that continues never lowers the running maximum. -/
lemma rescanStep_cont_mono {cfg : Config} {P : WalkParams} {prev : Int}
    {ls : RescanLoopState} {e : DirEntry} {ls1 : RescanLoopState}
    {acts : List WalkAction}
    (h : rescanStep cfg P prev ls e = StepRes.cont ls1 acts) :
    ls.newMax ≤ ls1.newMax := by
  simp only [rescanStep] at h
  repeat' split at h
  all_goals cases h
  all_goals
    first
    | omega
    | (dsimp only; omega)

/-- A walk step that returns early never lowers the running maximum. -/
lemma rescanStep_ret_mono {cfg : Config} {P : WalkParams} {prev : Int}
    {ls : RescanLoopState} {e : DirEntry} {ls1 : RescanLoopState}
    (h : rescanStep cfg P prev ls e = StepRes.ret ls1) :
    ls.newMax ≤ ls1.newMax := by
  simp only [rescanStep] at h
  repeat' split at h
  all_goals cases h
  all_goals
    first
    | omega
    | (dsimp only; omega)

/-- Any successfully completed walk ends with the location's current-lmt
memo at the clamp of some value at least the seeded running maximum. -/
lemma rescanGo_lmt (cfg : Config) (P : WalkParams) (prev : Int) :
    ∀ (entries : List DirEntry) (ls : RescanLoopState) (s : CMState)
      (acts : List WalkAction),
      rescanGo cfg P prev ls entries = (Except.ok (), s, acts) →
      ∃ M, ls.newMax ≤ M ∧
        alookupS s.adirCurrentLMT P.location = some (if 0 < M then M else 1) := by
  intro entries
  induction entries with
  | nil =>
    intro ls s acts h
    simp only [rescanGo] at h
    have h2 := (rescanFinish_lmt cfg P ls).2
    rw [h] at h2
    exact ⟨ls.newMax, le_refl _, h2⟩
  | cons e rest ih =>
    intro ls s acts h
    simp only [rescanGo] at h
    cases hstep : rescanStep cfg P prev ls e with
    | cont ls1 acts1 =>
      rw [hstep] at h
      dsimp only at h
      rcases hgo : rescanGo cfg P prev ls1 rest with ⟨r, s1, a2⟩
      rw [hgo] at h
      dsimp only at h
      injection h with h1 h2
      injection h2 with h2a h2b
      subst h1
      subst h2a
      obtain ⟨M, hM1, hM2⟩ := ih ls1 s1 a2 hgo
      exact ⟨M, le_trans (rescanStep_cont_mono hstep) hM1, hM2⟩
    | brk =>
      rw [hstep] at h
      dsimp only at h
      have h2 := (rescanFinish_lmt cfg P ls).2
      rw [h] at h2
      exact ⟨ls.newMax, le_refl _, h2⟩
    | ret ls1 =>
      rw [hstep] at h
      dsimp only at h
      injection h with h1 h2
      injection h2 with h2a h2b
      refine ⟨ls1.newMax, rescanStep_ret_mono hstep, ?_⟩
      rw [← h2a]
      exact finishScan_lookup _ _ _ _
    | err m st =>
      rw [hstep] at h
      dsimp only at h
      injection h with h1 h2
      cases h1

/-- Walk parameters for the lmt evidence: an untasked recursive scan of
"/m". -/
def wP5 : WalkParams :=
  { adirRecursive := true, adirHidden := false, location := "/m", rootpath := "/m",
    parent := none, taskPresent := false, taskId := 0, taskCancellable := false,
    finalShutdown := false, finalTaskValid := true, fuel := 0 }

/-- A manager state whose previous-lmt memo for "/m" is 100 over an empty
catalog. -/
def cexC5State : CMState :=
  { emptyCM with adirPreviousLMT := [("/m", 100)] }

/-- Scanning an empty directory does not leave the memo at 1 when a
positive previous memo exists: the walk seeds the running maximum with the
previous value, so finishScan re-records 100. -/
theorem rescan_empty_dir_promotes_prev_lmt :
    alookupS (rescanLoop cfg0 wP5 cexC5State 2 []).2.1.adirCurrentLMT "/m" =
      some 100 ∧
    ¬ alookupS (rescanLoop cfg0 wP5 cexC5State 2 []).2.1.adirCurrentLMT "/m" =
      some 1 := by
  decide

/-- C5: finishScan writes the location's current-lmt memo as the clamped
maximum - the value itself when positive, 1 otherwise - and stamps and
persists the parent container's mtime exactly when the maximum is
positive and the parent exists (content_manager.cc lines 893-903).  The
consequence for a completed walk is weaker than claimed: the running
maximum is seeded with the previous memo, so the recorded value is the
clamp of some M at least the previous memo - an empty directory
re-records a positive previous memo rather than 1. -/
theorem finishScan_lmt_spec :
    (∀ (s : CMState) (location : String) (parent : Option CdsObject) (lmt : Int),
      alookupS (finishScan s true location parent lmt).adirCurrentLMT location =
        some (if 0 < lmt then lmt else 1) ∧
      (∀ p, parent = some p → 0 < lmt →
        (finishScan s true location parent lmt).db =
          dbUpdateObject s.db { p with mtime := lmt }) ∧
      (parent = none ∨ lmt ≤ 0 → (finishScan s true location parent lmt).db = s.db)) ∧
    (∀ (cfg : Config) (P : WalkParams) (s : CMState) (cid : Int),
      alookupS (rescanLoop cfg P s cid []).2.1.adirCurrentLMT P.location =
        some (if 0 < getPreviousLMT s P.location then getPreviousLMT s P.location
          else 1)) ∧
    (∀ (cfg : Config) (P : WalkParams) (s : CMState) (cid : Int)
      (entries : List DirEntry) (s2 : CMState) (acts : List WalkAction),
      rescanLoop cfg P s cid entries = (Except.ok (), s2, acts) →
      ∃ M, getPreviousLMT s P.location ≤ M ∧
        alookupS s2.adirCurrentLMT P.location = some (if 0 < M then M else 1)) := by
  refine ⟨?_, ?_, ?_⟩
  · intro s location parent lmt
    refine ⟨finishScan_lookup s location parent lmt, ?_, ?_⟩
    · intro p hp hl
      subst hp
      simp [finishScan, setCurrentLMT, hl]
    · intro hor
      rcases hor with hp | hl
      · subst hp
        simp [finishScan, setCurrentLMT]
      · have hno : ¬ 0 < lmt := by omega
        cases parent <;> simp [finishScan, setCurrentLMT, hno]
  · intro cfg P s cid
    exact (rescanFinish_lmt cfg P _).2
  · intro cfg P s cid entries s2 acts h
    simp only [rescanLoop] at h
    obtain ⟨M, h1, h2⟩ := rescanGo_lmt cfg P _ entries _ s2 acts h
    exact ⟨M, h1, h2⟩

/-- Witness for the lmt theorem: the completed empty-directory walk over
the previous-memo-100 state yields a recorded clamp of some value at
least 100. -/
theorem finishScan_lmt_spec_witness :
    ∃ M, getPreviousLMT cexC5State "/m" ≤ M ∧
      alookupS (rescanLoop cfg0 wP5 cexC5State 2 []).2.1.adirCurrentLMT "/m" =
        some (if 0 < M then M else 1) :=
  finishScan_lmt_spec.2.2 cfg0 wP5 cexC5State 2 []
    (rescanLoop cfg0 wP5 cexC5State 2 []).2.1
    (rescanLoop cfg0 wP5 cexC5State 2 []).2.2 rfl
